import Mathlib

/-!
# TrackVis reader (`src/src/trackVisImage.cpp`): shallow embedding

The C++ reader `TVReader` is embedded as pure functions over an explicit
model of the objects it manipulates:

* the `std::istream` it owns (`IStream`: file bytes, get position, failbit,
  plus a log of the byte ranges extracted so far);
* the `vtkFloatArray` it bulk-reads point data into (`vtkFloatArray`);
* the `vtkCellArray` it registers one cell per track in (a list of id lists);
* the reader object itself (`TVReader`).

Machine integers are mathematical integers with explicit reduction modulo
`2^32` / `2^64` at the places where the C++ types truncate: `size_t`
arithmetic is modulo `2^64`, conversions between signed and unsigned types
reinterpret the two's-complement bits, and the `int` product
`cur_pts * TV_TRACK_NUMPTS` wraps modulo `2^32`.  Loops carry a fuel argument;
`none` means the fuel ran out before the loop finished.  C++ exceptions and
undefined behaviour that stops a call are reported as a `Fault`.  Memory
allocation always succeeds.

`trackVisImage.h` (the declaration of `TVHeader`, `TV_HEADERLEN`,
`TV_TRACK_NUMPTS`) is not among the source files: the header layout is a
parameter (`TVLayout`), and `TV_TRACK_NUMPTS` is the `int` constant `3`
(three components per point).
-/

namespace TrackVis

set_option autoImplicit false
set_option maxRecDepth 100000

/-! ## Bytes and machine integers -/

/-- One byte of a file or of memory. -/
abbrev Byte := Fin 256

/-- Little-endian value of a byte string. -/
def le_nat : List Byte → Nat
  | [] => 0
  | b :: bs => b.val + 256 * le_nat bs

/-- Two's-complement reading of the low `bits` bits of `v`. -/
def to_signed (bits : Nat) (v : Nat) : Int :=
  if v % 2 ^ bits < 2 ^ (bits - 1) then ((v % 2 ^ bits : Nat) : Int)
  else ((v % 2 ^ bits : Nat) : Int) - ((2 ^ bits : Nat) : Int)

/-- Conversion of a signed integer to the unsigned type of `bits` bits. -/
def to_unsigned (bits : Nat) (x : Int) : Nat :=
  (x % ((2 ^ bits : Nat) : Int)).toNat

/-- The four bytes of an `int` object in memory (little-endian). -/
def int_bytes (x : Int) : List Byte :=
  let v := to_unsigned 32 x
  [⟨v % 256, Nat.mod_lt _ (by decide)⟩,
   ⟨v / 256 % 256, Nat.mod_lt _ (by decide)⟩,
   ⟨v / 65536 % 256, Nat.mod_lt _ (by decide)⟩,
   ⟨v / 16777216 % 256, Nat.mod_lt _ (by decide)⟩]

/-- Value of an `int` object after `got` was copied over its first bytes
(`stream->read((char*)&cur_pts, sizeof(int))`): the bytes not overwritten keep
their old content. -/
def store_int (old : Int) (got : List Byte) : Int :=
  to_signed 32 (le_nat (got ++ (int_bytes old).drop got.length))

/-- The C++ `sizeof(float)`. -/
def SIZEOF_FLOAT : Nat := 4

/-- The C++ `sizeof(int)`. -/
def SIZEOF_INT : Nat := 4

/-- Modelled from the spec: `TV_TRACK_NUMPTS`, a constant of the absent
`trackVisImage.h`, is the number of float components per point ("triples of
floats"), 3; it enters the arithmetic as an `int`. -/
def TV_TRACK_NUMPTS : Nat := 3

/-! ## `tv_trackblock_size` (trackVisImage.cpp:17-19) -/

/-- The C++ `tv_trackblock_size`:
`sizeof(float) * TV_TRACK_NUMPTS * (n_pts + (n_pts * n_scalars) + (n_properties))`
in `size_t` arithmetic. -/
def tv_trackblock_size (n_pts n_scalars n_properties : Nat) : Nat :=
  (SIZEOF_FLOAT * TV_TRACK_NUMPTS * (n_pts + (n_pts * n_scalars) + n_properties)) % 2 ^ 64

/-- Record size as the specification words it:
`4 + 4 * point_count * (3 + n_scalars) + 4 * n_properties`. -/
def record_size_spec (point_count n_scalars n_properties : Nat) : Nat :=
  4 + 4 * point_count * (3 + n_scalars) + 4 * n_properties

/-! ## Faults -/

/-- Ways in which a call fails to return normally. -/
inductive Fault where
  /-- The C++ `throw;` with no exception being handled: `std::terminate`. -/
  | terminate
  /-- The C++ `std::vector<vtkIdType> idlist(cur_pts)` with a negative `cur_pts`. -/
  | length_error
  /-- The C++ `offsets.back()` on an empty vector. -/
  | back_of_empty_vector
  /-- The C++ `offsets[n]` with `n >= offsets.size()`. -/
  | index_out_of_range
  /-- An `int` is used whose bytes were never (completely) written. -/
  | indeterminate_value
  /-- Bytes are stored before the start of the float array. -/
  | out_of_bounds_write
  /-- Control reaches the end of a value-returning function. -/
  | missing_return
  deriving DecidableEq, Repr

/-! ## The input stream -/

/-- A file on disk.  Its size fits the signed 64-bit `std::streamoff`. -/
structure File where
  bytes : List Byte
  size_ok : bytes.length < 2 ^ 63

/-- State of the `std::istream` the reader owns.  `log` records, for every
`read` that reached the stream buffer, the position it started at and the
number of bytes it extracted. -/
structure IStream where
  data : List Byte
  pos : Nat
  failbit : Bool
  log : List (Nat × Nat)
  deriving DecidableEq, Repr

/-- The C++ `std::fstream(filename, ios::in | ios::binary)`: a file that cannot be
opened leaves the stream failed. -/
def IStream.fstream : Option File → IStream
  | some f => { data := f.bytes, pos := 0, failbit := false, log := [] }
  | none => { data := [], pos := 0, failbit := true, log := [] }

/-- The C++ `seekg(p)`: no effect on a failed stream; a negative position fails. -/
def IStream.seekg (s : IStream) (p : Int) : IStream :=
  if s.failbit then s
  else if p < 0 then { s with failbit := true }
  else { s with pos := p.toNat }

/-- The C++ `seekg(0, ios::end)`. -/
def IStream.seekg_end (s : IStream) : IStream :=
  if s.failbit then s else { s with pos := s.data.length }

/-- The C++ `tellg()`: `-1` on a failed stream. -/
def IStream.tellg (s : IStream) : Int :=
  if s.failbit then -1 else (s.pos : Int)

/-- The C++ `read(buf, n)`: on a failed stream nothing is extracted; otherwise the
bytes available (at most `n`) are extracted, and extracting fewer than `n`
sets failbit.  Returns the new state and the bytes stored into `buf`. -/
def IStream.read (s : IStream) (n : Int) : IStream × List Byte :=
  if s.failbit then (s, [])
  else
    let got := (s.data.drop s.pos).take n.toNat
    ({ s with pos := s.pos + got.length,
              failbit := decide ((got.length : Int) ≠ n),
              log := s.log ++ [(s.pos, got.length)] }, got)

/-! ## The header -/

/-- Position of the header fields the reader uses (declared in
`trackVisImage.h`): total header length, and offset and width in bytes of
`n_scalars`, `n_properties` and `n_count`. -/
structure TVLayout where
  TV_HEADERLEN : Nat
  n_scalars_off : Nat
  n_scalars_len : Nat
  n_properties_off : Nat
  n_properties_len : Nat
  n_count_off : Nat
  n_count_len : Nat
  deriving DecidableEq, Repr

/-- The fields lie inside the header and `n_count` overlaps neither
`n_scalars` nor `n_properties`. -/
def TVLayout.wf (L : TVLayout) : Prop :=
  L.n_scalars_off + L.n_scalars_len ≤ L.TV_HEADERLEN ∧
  L.n_properties_off + L.n_properties_len ≤ L.TV_HEADERLEN ∧
  L.n_count_off + L.n_count_len ≤ L.TV_HEADERLEN ∧
  (L.n_scalars_off + L.n_scalars_len ≤ L.n_count_off ∨
    L.n_count_off + L.n_count_len ≤ L.n_scalars_off) ∧
  (L.n_properties_off + L.n_properties_len ≤ L.n_count_off ∨
    L.n_count_off + L.n_count_len ≤ L.n_properties_off)

instance (L : TVLayout) : Decidable L.wf := by
  unfold TVLayout.wf; infer_instance

/-- A sample layout, that of the published TrackVis format: 1000 bytes,
`short n_scalars` at 36, `short n_properties` at 238, `int n_count` at 988. -/
def trackvis_layout : TVLayout :=
  { TV_HEADERLEN := 1000, n_scalars_off := 36, n_scalars_len := 2,
    n_properties_off := 238, n_properties_len := 2,
    n_count_off := 988, n_count_len := 4 }

/-- Modelled from the spec: the fields of `TVHeader` (a type of the absent
`trackVisImage.h`) that the reader consults. -/
structure TVHeader where
  n_scalars : Int
  n_properties : Int
  n_count : Int
  deriving DecidableEq, Repr

/-- Signed little-endian integer field of `len` bytes at offset `off`. -/
def header_field (hdr : List Byte) (off len : Nat) : Int :=
  to_signed (8 * len) (le_nat ((hdr.drop off).take len))

/-- The `TVHeader` object after `stream->read((char*)&header, sizeof(TVHeader))`
stored `hdr` into it. -/
def TVHeader.of_bytes (L : TVLayout) (hdr : List Byte) : TVHeader :=
  { n_scalars := header_field hdr L.n_scalars_off L.n_scalars_len,
    n_properties := header_field hdr L.n_properties_off L.n_properties_len,
    n_count := header_field hdr L.n_count_off L.n_count_len }

/-! ## The reader -/

/-- The data members of `class TVReader`. -/
structure TVReader where
  header : TVHeader
  filesize : Nat
  stream : IStream
  offsets : List (Nat × Nat)
  deriving DecidableEq, Repr

/-- The C++ `TVReader::TVReader` (trackVisImage.cpp:66-77).  Returns the final state of
the stream together with the constructed reader or the fault.
`sizeof(TVHeader)` is `TV_HEADERLEN` (the header occupies exactly that many
bytes); `file = none` is a file name that cannot be opened. -/
def TVReader.construct (L : TVLayout) (file : Option File) :
    IStream × Except Fault TVReader :=
  let stream := IStream.fstream file
  if stream.failbit then (stream, .error .terminate)
  else
    let s1 := stream.seekg_end
    let filesize := to_unsigned 64 s1.tellg
    if filesize < L.TV_HEADERLEN then (s1, .error .terminate)
    else
      let s2 := s1.seekg 0
      let r := s2.read L.TV_HEADERLEN
      (r.1, .ok { header := TVHeader.of_bytes L r.2, filesize := filesize,
                  stream := r.1, offsets := [] })

/-! ## `read_track` (trackVisImage.cpp:89-111) -/

/-- The C++ `struct TVTrack`; no value of it is ever built by the code. -/
structure TVTrack where
  n_points : Int
  deriving DecidableEq, Repr

/-- The `while (offsets.size() < n)` loop of `read_track`.  Result: the reader
and `cur_offset` when the loop is left, or the fault. -/
def read_track_loop (n : Nat) : Nat → TVReader → Nat → Option (Except Fault (TVReader × Nat))
  | 0, _, _ => none
  | fuel + 1, r, cur_offset =>
    if r.offsets.length < n then
      if cur_offset ≥ r.filesize then
        -- `continue;`
        read_track_loop n fuel r cur_offset
      else
        let s1 := r.stream.seekg (to_signed 64 cur_offset)
        let rd := s1.read SIZEOF_INT
        match r.offsets.getLast? with
        | none => some (.error .back_of_empty_vector)
        | some back =>
          let cur_offset1 := (cur_offset +
            tv_trackblock_size back.1 (to_unsigned 64 r.header.n_scalars)
              (to_unsigned 64 r.header.n_properties)) % 2 ^ 64
          if rd.2.length < SIZEOF_INT then some (.error .indeterminate_value)
          else
            let n_pts := to_signed 32 (le_nat rd.2)
            read_track_loop n fuel
              { r with stream := rd.1,
                       offsets := r.offsets ++ [(to_unsigned 64 n_pts, cur_offset1)] }
              cur_offset1
    else some (.ok (r, cur_offset))

/-- The C++ `TVReader::read_track`.  `none`: the fuel ran out inside the loop;
`ok (r, none)`: `return nullptr`. -/
def TVReader.read_track (L : TVLayout) (fuel : Nat) (r : TVReader) (n : Nat) :
    Option (Except Fault (TVReader × Option TVTrack)) :=
  let cur_offset := match r.offsets.getLast? with
    | some back => back.2
    | none => L.TV_HEADERLEN
  match read_track_loop n fuel r cur_offset with
  | none => none
  | some (.error e) => some (.error e)
  | some (.ok (r1, cur_offset1)) =>
    if cur_offset1 = L.TV_HEADERLEN ∨ cur_offset1 ≥ r1.filesize then
      some (.ok (r1, none))
    else
      match r1.offsets.get? n with
      | none => some (.error .index_out_of_range)
      | some _ => some (.error .missing_return)

/-! ## The geometry objects -/

/-- A `vtkFloatArray`: `MaxId` is the index of the last value in use (`-1`
when empty) and `mem` holds the bytes of the values in use, `none` for a byte
that was allocated but never written. -/
structure vtkFloatArray where
  NumberOfComponents : Nat
  MaxId : Int
  mem : List (Option Byte)
  deriving DecidableEq, Repr

/-- The C++ `vtkNew<vtkFloatArray>`. -/
def vtkFloatArray.new : vtkFloatArray :=
  { NumberOfComponents := 1, MaxId := -1, mem := [] }

/-- The C++ `WriteVoidPointer(valueIdx, numValues)`: makes sure `valueIdx + numValues`
values are allocated and in use. -/
def vtkFloatArray.WriteVoidPointer (a : vtkFloatArray) (valueIdx numValues : Int) :
    vtkFloatArray :=
  let newSize := valueIdx + numValues
  let maxId := max a.MaxId (newSize - 1)
  { a with MaxId := maxId,
           mem := a.mem ++ List.replicate (SIZEOF_FLOAT * (maxId + 1).toNat - a.mem.length) none }

/-- The bytes `got` are stored at the address of value `valueIdx`. -/
def vtkFloatArray.store (a : vtkFloatArray) (valueIdx : Nat) (got : List Byte) :
    vtkFloatArray :=
  { a with mem := a.mem.take (SIZEOF_FLOAT * valueIdx) ++ got.map some ++
                    a.mem.drop (SIZEOF_FLOAT * valueIdx + got.length) }

/-- The C++ `GetNumberOfTuples()`. -/
def vtkFloatArray.GetNumberOfTuples (a : vtkFloatArray) : Nat :=
  (a.MaxId + 1).toNat / a.NumberOfComponents

/-- A `vtkCellArray`: the point ids of each cell, in insertion order. -/
abbrev vtkCellArray := List (List Int)

/-- A `vtkPolyData`: `none` is the null pointer of a fresh object. -/
structure vtkPolyData where
  Points : Option vtkFloatArray
  Lines : Option vtkCellArray
  deriving DecidableEq, Repr

/-- The C++ `vtkNew<vtkPolyData>`. -/
def vtkPolyData.new : vtkPolyData := { Points := none, Lines := none }

/-- The C++ `GetNumberOfPoints()`. -/
def vtkPolyData.GetNumberOfPoints (pd : vtkPolyData) : Nat :=
  match pd.Points with
  | none => 0
  | some a => a.GetNumberOfTuples

/-- The C++ `GetNumberOfLines()`. -/
def vtkPolyData.GetNumberOfLines (pd : vtkPolyData) : Nat :=
  match pd.Lines with
  | none => 0
  | some l => l.length

/-! ## `get_polydata` (trackVisImage.cpp:113-155) -/

/-- The C++ `std::vector<vtkIdType> idlist(cur_pts); std::iota(.., cur_idx)`: the
`size_t` counter is converted to `vtkIdType` element by element. -/
def iota_idlist (cur_pts cur_idx : Nat) : List Int :=
  (List.range cur_pts).map (fun j => to_signed 64 ((cur_idx + j) % 2 ^ 64))

/-- The variables live across iterations of the decode loop. -/
structure DecodeState where
  stream : IStream
  pointdata : vtkFloatArray
  lines : vtkCellArray
  cur_idx : Nat
  cur_pts : Int
  deriving DecidableEq, Repr

/-- One iteration of the `while` body (lines 129-143).  The `int` product
`cur_pts * TV_TRACK_NUMPTS` wraps modulo `2^32`. -/
def get_polydata_body (st : DecodeState) : DecodeState × Option Fault :=
  let rd := st.stream.read SIZEOF_INT
  let cur_pts := store_int st.cur_pts rd.2
  let valueIdx := to_signed 64 ((st.cur_idx * TV_TRACK_NUMPTS) % 2 ^ 64)
  let numValues := to_signed 32 (to_unsigned 32 (cur_pts * TV_TRACK_NUMPTS))
  let pd1 := st.pointdata.WriteVoidPointer valueIdx numValues
  let count := to_signed 64 ((to_unsigned 64 numValues * SIZEOF_FLOAT) % 2 ^ 64)
  let rd2 := rd.1.read count
  if valueIdx < 0 ∧ rd2.2 ≠ [] then
    ({ st with stream := rd2.1, pointdata := pd1, cur_pts := cur_pts },
      some .out_of_bounds_write)
  else
    let pd2 := pd1.store valueIdx.toNat rd2.2
    if cur_pts < 0 then
      ({ st with stream := rd2.1, pointdata := pd2, cur_pts := cur_pts },
        some .length_error)
    else
      ({ stream := rd2.1, pointdata := pd2,
         lines := st.lines ++ [iota_idlist cur_pts.toNat st.cur_idx],
         cur_idx := (st.cur_idx + to_unsigned 64 cur_pts) % 2 ^ 64,
         cur_pts := cur_pts }, none)

/-- The loop `while (stream->tellg() < this->filesize)`: `tellg()` is compared
as a `size_t`. -/
def get_polydata_loop (filesize : Nat) : Nat → DecodeState → Option (DecodeState × Option Fault)
  | 0, _ => none
  | fuel + 1, st =>
    if to_unsigned 64 st.stream.tellg < filesize then
      match get_polydata_body st with
      | (st1, some e) => some (st1, some e)
      | (st1, none) => get_polydata_loop filesize fuel st1
    else some (st, none)

/-- The C++ `TVReader::get_polydata`.  `none`: the fuel ran out; otherwise the reader
after the call and the polydata returned or the fault. -/
def TVReader.get_polydata (L : TVLayout) (fuel : Nat) (r : TVReader) :
    Option (TVReader × Except Fault vtkPolyData) :=
  let s0 := r.stream.seekg (L.TV_HEADERLEN : Int)
  if r.header.n_scalars = 0 ∧ r.header.n_properties = 0 then
    let pointdata := { vtkFloatArray.new with NumberOfComponents := TV_TRACK_NUMPTS }
    match get_polydata_loop r.filesize fuel
        { stream := s0, pointdata := pointdata, lines := [], cur_idx := 0, cur_pts := 0 } with
    | none => none
    | some (st, some e) => some ({ r with stream := st.stream }, .error e)
    | some (st, none) =>
      some ({ r with stream := st.stream },
            .ok { Points := some st.pointdata, Lines := some st.lines })
  else
    some ({ r with stream := s0 }, .ok vtkPolyData.new)

/-! ## The file format, as the statements below refer to it -/

/-- One track record of a file without scalars and properties: the four bytes
of the point count and the bytes of the point data after them. -/
structure TVRecord where
  count : List Byte
  payload : List Byte
  deriving DecidableEq, Repr

/-- The declared point count: the count field read as a little-endian `int`. -/
def TVRecord.point_count (r : TVRecord) : Int :=
  to_signed 32 (le_nat r.count)

/-- The bytes of the record in the file. -/
def TVRecord.bytes (r : TVRecord) : List Byte :=
  r.count ++ r.payload

/-- A well-formed record: a 4-byte count field holding `p >= 0`, followed by
`p` points of three 4-byte floats. -/
def TVRecord.wf (r : TVRecord) : Prop :=
  r.count.length = 4 ∧ 0 ≤ r.point_count ∧ r.payload.length = 12 * r.point_count.toNat

instance (r : TVRecord) : Decidable r.wf := by
  unfold TVRecord.wf; infer_instance

/-- The number of floats of the record, `3 * p`, is representable as an `int`. -/
def TVRecord.fits_int (r : TVRecord) : Prop :=
  3 * r.point_count < 2 ^ 31

instance (r : TVRecord) : Decidable r.fits_int := by
  unfold TVRecord.fits_int; infer_instance

/-- The point counts `[p0, ..., p_{k-1}]` of a sequence of records. -/
def point_counts (recs : List TVRecord) : List Nat :=
  recs.map (fun r => r.point_count.toNat)

/-- The concatenated records. -/
def records_bytes (recs : List TVRecord) : List Byte :=
  (recs.map TVRecord.bytes).flatten

/-- The concatenated point data of the records, without the count fields. -/
def records_payload (recs : List TVRecord) : List Byte :=
  (recs.map TVRecord.payload).flatten

/-- The cell covering the index range `[start, start + count)`. -/
def index_range (start count : Nat) : List Int :=
  (List.range' start count).map Int.ofNat

/-- The cells of consecutive index ranges of the given lengths, the first one
starting at `start`. -/
def consecutive_ranges (start : Nat) : List Nat → List (List Int)
  | [] => []
  | p :: ps => index_range start p :: consecutive_ranges (start + p) ps

/-- The reader that `TVReader::TVReader` leaves for a file of at least
`TV_HEADERLEN` bytes. -/
def TVReader.opened (L : TVLayout) (f : File) : TVReader :=
  { header := TVHeader.of_bytes L (f.bytes.take L.TV_HEADERLEN),
    filesize := f.bytes.length,
    stream := { data := f.bytes, pos := L.TV_HEADERLEN, failbit := false,
                log := [(0, L.TV_HEADERLEN)] },
    offsets := [] }

/-- The C++ `tv_reader_load` up to the call of `get_polydata` (trackVisImage.cpp:178-184):
construct the reader on the file, then decode it. -/
def tv_reader_load (L : TVLayout) (fuel : Nat) (file : Option File) :
    Option (Except Fault vtkPolyData) :=
  match (TVReader.construct L file).2 with
  | .error e => some (.error e)
  | .ok r => (r.get_polydata L fuel).map (fun x => x.2)

/-! ## Predicates on the stream used in the statements -/

/-- The get position is inside the file and every logged extraction
`(start, length)` lies inside the file: no byte at a position `>= filesize`
was read. -/
def IStream.in_bounds (s : IStream) : Prop :=
  s.pos ≤ s.data.length ∧ ∀ e ∈ s.log, e.1 + e.2 ≤ s.data.length

instance (s : IStream) : Decidable s.in_bounds := by
  unfold IStream.in_bounds; infer_instance

/-- Bytes left before the end of the file; `0` once the stream has failed. -/
def IStream.remaining (s : IStream) : Nat :=
  if s.failbit then 0 else s.data.length - s.pos

/-- The same stream state over other file contents. -/
def IStream.with_data (s : IStream) (d : List Byte) : IStream :=
  { s with data := d }

/-- The same decode state over other file contents. -/
def DecodeState.with_data (st : DecodeState) (d : List Byte) : DecodeState :=
  { st with stream := st.stream.with_data d }

/-- The variables of `get_polydata` when the decode loop is entered on a
freshly opened reader over the file bytes `d`. -/
def decode_start (L : TVLayout) (d : List Byte) : DecodeState :=
  { stream := { data := d, pos := L.TV_HEADERLEN, failbit := false,
                log := [(0, L.TV_HEADERLEN)] },
    pointdata := { NumberOfComponents := 3, MaxId := -1, mem := [] },
    lines := [], cur_idx := 0, cur_pts := 0 }

/-- What `get_polydata` hands back when the decode loop is left in state `x.1`
with fault `x.2`. -/
def decode_result (x : DecodeState × Option Fault) : Except Fault vtkPolyData :=
  match x.2 with
  | some e => .error e
  | none => .ok { Points := some x.1.pointdata, Lines := some x.1.lines }

/-! ## Sample files -/

/-- A TrackVis header of 1000 zero bytes: `n_scalars = n_properties = n_count = 0`. -/
def zero_header : List Byte := List.replicate 1000 0

/-- The bytes `start, start + 1, ...` (modulo 256), `len` of them. -/
def ramp (start len : Nat) : List Byte :=
  (List.range len).map (fun i => ⟨(start + i) % 256, Nat.mod_lt _ (by decide)⟩)

/-- A record of 3 points. -/
def record_3 : TVRecord := { count := [3, 0, 0, 0], payload := ramp 1 36 }

/-- A record of 2 points. -/
def record_2 : TVRecord := { count := [2, 0, 0, 0], payload := ramp 101 24 }

/-- A record of 1 point. -/
def record_1 : TVRecord := { count := [1, 0, 0, 0], payload := ramp 1 12 }

/-- The header followed by a record of 3 points and a record of 2 points. -/
def two_track_file : File :=
  ⟨zero_header ++ records_bytes [record_3, record_2], by decide⟩

/-- The header alone: a file with no record. -/
def header_only_file : File := ⟨zero_header, by decide⟩

/-- The header followed by one record of 1 point. -/
def one_track_file : File := ⟨zero_header ++ records_bytes [record_1], by decide⟩

/-- The header, a point count of 10, and only 5 of the 120 bytes of point
data: a file truncated inside its only record. -/
def truncated_file : File := ⟨zero_header ++ [10, 0, 0, 0] ++ ramp 1 5, by decide⟩

/-- The header followed by a record whose point count is `-1`. -/
def negative_count_file : File :=
  ⟨zero_header ++ [255, 255, 255, 255] ++ ramp 1 12, by decide⟩

/-- A header with `n_scalars = 1`, followed by the two records. -/
def scalars_file : File :=
  ⟨List.replicate 36 0 ++ [1, 0] ++ List.replicate 962 0 ++
    records_bytes [record_3, record_2], by decide⟩

/-- The two-record file with `n_count = 7` in the header. -/
def two_track_file_count7 : File :=
  ⟨List.replicate 988 0 ++ [7, 0, 0, 0] ++ List.replicate 8 0 ++
    records_bytes [record_3, record_2], by decide⟩

/-- A file of 10 bytes, shorter than the header. -/
def short_file : File := ⟨ramp 0 10, by decide⟩

/-- The count field `AB AA AA 2A`: the little-endian `int` 715827883. -/
def big_count : List Byte := [0xAB, 0xAA, 0xAA, 0x2A]

/-- The point data of 715827883 points, all coordinates zero. -/
def big_payload : List Byte := List.replicate (12 * 715827883) 0

/-- A record of 715827883 points: `3 * 715827883 = 2^31 + 1` is not
representable as an `int`. -/
def big_record : TVRecord := { count := big_count, payload := big_payload }

/-- The header followed by `big_record`. -/
def big_file : File :=
  ⟨zero_header ++ (big_count ++ big_payload), by
    have h1 : zero_header.length = 1000 := List.length_replicate _ _
    have h2 : big_payload.length = 12 * 715827883 := List.length_replicate _ _
    have h3 : big_count.length = 4 := rfl
    rw [List.length_append, List.length_append, h1, h2, h3]
    norm_num⟩

/-! # Lemmas

## Machine integers -/

theorem to_signed_of_lt (bits v : Nat) (h : v < 2 ^ (bits - 1)) :
    to_signed bits v = (v : Int) := by
  have h2 : 2 ^ (bits - 1) ≤ 2 ^ bits := Nat.pow_le_pow_right (by decide) (Nat.sub_le _ _)
  have h3 : v % 2 ^ bits = v := Nat.mod_eq_of_lt (by omega)
  unfold to_signed
  rw [h3, if_pos h]

theorem to_unsigned_of_nonneg (bits : Nat) (x : Int) (h0 : 0 ≤ x)
    (h : x < ((2 ^ bits : Nat) : Int)) : to_unsigned bits x = x.toNat := by
  unfold to_unsigned
  rw [Int.emod_eq_of_lt h0 h]

theorem to_unsigned_natCast (bits v : Nat) (h : v < 2 ^ bits) :
    to_unsigned bits (v : Int) = v := by
  rw [to_unsigned_of_nonneg bits _ (Int.ofNat_nonneg v) (by exact_mod_cast h)]
  simp

theorem int_bytes_length (x : Int) : (int_bytes x).length = 4 := rfl

theorem store_int_full (old : Int) (got : List Byte) (h : got.length = 4) :
    store_int old got = to_signed 32 (le_nat got) := by
  unfold store_int
  rw [h, List.drop_of_length_le (by simp [int_bytes_length]), List.append_nil]

/-! ## Stream -/

theorem IStream.read_exact (s : IStream) (a b c : List Byte) (n : Int)
    (hf : s.failbit = false) (hd : s.data = a ++ b ++ c) (hp : s.pos = a.length)
    (hn : n = (b.length : Int)) :
    s.read n = ({ s with pos := a.length + b.length, failbit := false,
                         log := s.log ++ [(a.length, b.length)] }, b) := by
  unfold IStream.read
  subst hn
  simp [hf, hd, hp]

/-! ## Float array and cells -/

theorem iota_idlist_eq (p c : Nat) (h : c + p < 2 ^ 63) :
    iota_idlist p c = index_range c p := by
  unfold iota_idlist index_range
  rw [List.range'_eq_map_range, List.map_map]
  apply List.map_congr_left
  intro j hj
  have hj2 : j < p := List.mem_range.mp hj
  have h1 : (c + j) % 2 ^ 64 = c + j := Nat.mod_eq_of_lt (by omega)
  rw [h1, to_signed_of_lt 64 (c + j) (by norm_num; omega)]
  rfl

theorem write_store_append (a : vtkFloatArray) (c p : Nat) (got : List Byte)
    (hmax : a.MaxId = 3 * (c : Int) - 1) (hmem : a.mem.length = 12 * c)
    (hgot : got.length = 12 * p) :
    (a.WriteVoidPointer (3 * c : Nat) (3 * p : Nat)).store (3 * c) got =
      { NumberOfComponents := a.NumberOfComponents,
        MaxId := 3 * ((c + p : Nat) : Int) - 1,
        mem := a.mem ++ got.map some } := by
  have hm : max a.MaxId (((3 * c : Nat) : Int) + ((3 * p : Nat) : Int) - 1)
      = 3 * ((c + p : Nat) : Int) - 1 := by
    rw [hmax]; push_cast; omega
  have hn : (3 * ((c + p : Nat) : Int) - 1 + 1).toNat = 3 * (c + p) := by
    have : 3 * ((c + p : Nat) : Int) - 1 + 1 = ((3 * (c + p) : Nat) : Int) := by
      push_cast; ring
    rw [this, Int.toNat_ofNat]
  unfold vtkFloatArray.store vtkFloatArray.WriteVoidPointer
  simp only [hm, hn, SIZEOF_FLOAT]
  congr 1
  have h1 : 4 * (3 * c) = a.mem.length := by omega
  rw [h1, List.take_left, List.drop_of_length_le, List.append_nil]
  simp only [List.length_append, List.length_replicate]
  omega

/-! ## One well-formed record through the loop body -/

theorem get_polydata_body_record (st : DecodeState) (a rest : List Byte) (r : TVRecord)
    (p : Nat) (hcnt : r.count.length = 4) (hp : r.point_count = (p : Int))
    (hpay : r.payload.length = 12 * p) (hfit : 3 * p < 2 ^ 31)
    (hd : st.stream.data = a ++ r.bytes ++ rest) (hpos : st.stream.pos = a.length)
    (hf : st.stream.failbit = false)
    (hmax : st.pointdata.MaxId = 3 * (st.cur_idx : Int) - 1)
    (hmem : st.pointdata.mem.length = 12 * st.cur_idx)
    (hb : 3 * (st.cur_idx + p) < 2 ^ 63) :
    get_polydata_body st =
      ({ stream := { data := st.stream.data, pos := a.length + 4 + 12 * p, failbit := false,
                     log := st.stream.log ++ [(a.length, 4), (a.length + 4, 12 * p)] },
         pointdata := { NumberOfComponents := st.pointdata.NumberOfComponents,
                        MaxId := 3 * ((st.cur_idx + p : Nat) : Int) - 1,
                        mem := st.pointdata.mem ++ r.payload.map some },
         lines := st.lines ++ [index_range st.cur_idx p],
         cur_idx := st.cur_idx + p,
         cur_pts := (p : Int) }, none) := by
  -- the two reads
  have hd1 : st.stream.data = a ++ r.count ++ (r.payload ++ rest) := by
    rw [hd, TVRecord.bytes]; simp
  have hr1 := IStream.read_exact st.stream a r.count (r.payload ++ rest) (SIZEOF_INT : Nat)
    hf hd1 hpos (by rw [hcnt]; rfl)
  have hd2 : st.stream.data = (a ++ r.count) ++ r.payload ++ rest := by
    rw [hd1]; simp
  have hr2 : ({ data := st.stream.data, pos := a.length + 4, failbit := false,
                log := st.stream.log ++ [(a.length, 4)] } : IStream).read ((12 * p : Nat) : Int)
      = ({ data := st.stream.data, pos := a.length + 4 + 12 * p, failbit := false,
           log := st.stream.log ++ [(a.length, 4), (a.length + 4, 12 * p)] }, r.payload) := by
    have h := IStream.read_exact
      { data := st.stream.data, pos := a.length + 4, failbit := false,
        log := st.stream.log ++ [(a.length, 4)] }
      (a ++ r.count) r.payload rest ((12 * p : Nat) : Int) rfl hd2 (by simp [hcnt])
      (by rw [hpay])
    rw [h]
    simp [hcnt, hpay]
  -- the integers
  have hcp : store_int st.cur_pts r.count = (p : Int) := by
    rw [store_int_full _ _ hcnt]; exact hp
  have hvi : to_signed 64 ((st.cur_idx * TV_TRACK_NUMPTS) % 2 ^ 64) = ((3 * st.cur_idx : Nat) : Int) := by
    have : st.cur_idx * TV_TRACK_NUMPTS = 3 * st.cur_idx := by simp [TV_TRACK_NUMPTS, Nat.mul_comm]
    rw [this, Nat.mod_eq_of_lt (by omega), to_signed_of_lt _ _ (by norm_num; omega)]
  have hnv : to_signed 32 (to_unsigned 32 ((p : Int) * (TV_TRACK_NUMPTS : Nat))) = ((3 * p : Nat) : Int) := by
    have : (p : Int) * (TV_TRACK_NUMPTS : Nat) = ((3 * p : Nat) : Int) := by
      simp [TV_TRACK_NUMPTS, Int.mul_comm]
    rw [this, to_unsigned_natCast _ _ (by omega), to_signed_of_lt _ _ (by norm_num; omega)]
  have hct : to_signed 64 ((to_unsigned 64 ((3 * p : Nat) : Int) * SIZEOF_FLOAT) % 2 ^ 64)
      = ((12 * p : Nat) : Int) := by
    rw [to_unsigned_natCast _ _ (by omega)]
    have : 3 * p * SIZEOF_FLOAT = 12 * p := by simp [SIZEOF_FLOAT]; omega
    rw [this, Nat.mod_eq_of_lt (by omega), to_signed_of_lt _ _ (by norm_num; omega)]
  have hui : to_unsigned 64 (p : Int) = p := to_unsigned_natCast _ _ (by omega)
  have hws := write_store_append st.pointdata st.cur_idx p r.payload hmax hmem hpay
  unfold get_polydata_body
  simp only [hr1, hcp, hvi, hnv, hct, hcnt, hr2, hui]
  have hneg : ¬ (((3 * st.cur_idx : Nat) : Int) < 0 ∧ r.payload ≠ []) := by
    intro h; have := h.1; omega
  have hneg2 : ¬ ((p : Int) < 0) := by omega
  rw [if_neg hneg, if_neg hneg2, Int.toNat_ofNat, Int.toNat_ofNat, hws,
    iota_idlist_eq p st.cur_idx (by omega), Nat.mod_eq_of_lt (by omega)]

/-! ## The decode loop over a sequence of well-formed records -/

theorem tellg_unsigned (s : IStream) (hf : s.failbit = false) (h : s.pos < 2 ^ 64) :
    to_unsigned 64 s.tellg = s.pos := by
  unfold IStream.tellg
  rw [hf]
  exact to_unsigned_natCast 64 s.pos h

theorem records_bytes_cons (r : TVRecord) (rs : List TVRecord) :
    records_bytes (r :: rs) = r.count ++ r.payload ++ records_bytes rs := by
  simp [records_bytes, TVRecord.bytes]

theorem records_payload_length (recs : List TVRecord) (hall : ∀ r ∈ recs, r.wf ∧ r.fits_int) :
    (records_payload recs).length = 12 * (point_counts recs).sum := by
  induction recs with
  | nil => rfl
  | cons r rs ih =>
    obtain ⟨⟨_, _, hpay⟩, _⟩ := hall r (List.mem_cons_self r rs)
    have := ih (fun r2 hr2 => hall r2 (List.mem_cons_of_mem r hr2))
    simp only [records_payload, List.map_cons, List.flatten_cons, List.length_append,
      point_counts, List.sum_cons] at this ⊢
    rw [this, hpay]
    omega

theorem get_polydata_loop_leading_records (filesize : Nat) (recs : List TVRecord) :
    ∀ (st : DecodeState) (a rest : List Byte) (n : Nat),
      (∀ r ∈ recs, r.wf ∧ r.fits_int) →
      st.stream.data = a ++ records_bytes recs ++ rest → st.stream.pos = a.length →
      st.stream.failbit = false → filesize = st.stream.data.length → filesize < 2 ^ 63 →
      st.pointdata.MaxId = 3 * (st.cur_idx : Int) - 1 →
      st.pointdata.mem.length = 12 * st.cur_idx → 12 * st.cur_idx ≤ a.length →
      ∃ fin : DecodeState,
        get_polydata_loop filesize (recs.length + n) st = get_polydata_loop filesize n fin ∧
        fin.pointdata.NumberOfComponents = st.pointdata.NumberOfComponents ∧
        fin.pointdata.MaxId = 3 * ((st.cur_idx + (point_counts recs).sum : Nat) : Int) - 1 ∧
        fin.pointdata.mem = st.pointdata.mem ++ (records_payload recs).map some ∧
        fin.lines = st.lines ++ consecutive_ranges st.cur_idx (point_counts recs) ∧
        fin.cur_idx = st.cur_idx + (point_counts recs).sum ∧
        fin.stream.data = st.stream.data ∧
        fin.stream.pos = a.length + (records_bytes recs).length ∧
        fin.stream.failbit = false ∧
        12 * fin.cur_idx ≤ fin.stream.pos := by
  induction recs with
  | nil =>
    intro st a rest n _ _ hpos hf _ _ hmax _ hidx
    refine ⟨st, ?_, rfl, ?_, ?_, ?_, ?_, rfl, ?_, hf, ?_⟩
    · simp
    · simpa [point_counts] using hmax
    · simp [records_payload]
    · simp [point_counts, consecutive_ranges]
    · simp [point_counts]
    · simp [records_bytes, hpos]
    · omega
  | cons r rs ih =>
    intro st a rest n hall hd hpos hf hsz hlt hmax hmem hidx
    obtain ⟨⟨hcnt, hnn, hpay⟩, hfit⟩ := hall r (List.mem_cons_self r rs)
    obtain ⟨p, hp⟩ := Int.eq_ofNat_of_zero_le hnn
    have hpay2 : r.payload.length = 12 * p := by rw [hpay, hp, Int.toNat_ofNat]
    have hfit2 : 3 * p < 2 ^ 31 := by
      unfold TVRecord.fits_int at hfit
      rw [hp] at hfit
      exact_mod_cast hfit
    have hlen : filesize =
        a.length + 4 + 12 * p + (records_bytes rs).length + rest.length := by
      rw [hsz, hd, records_bytes_cons]
      simp [hcnt, hpay2]
      omega
    have hd1 : st.stream.data = a ++ r.bytes ++ (records_bytes rs ++ rest) := by
      rw [hd, records_bytes_cons, TVRecord.bytes]; simp
    have hstep := get_polydata_body_record st a (records_bytes rs ++ rest) r p hcnt hp hpay2
      hfit2 hd1 hpos hf hmax hmem (by omega)
    have ht := tellg_unsigned st.stream hf (by omega)
    obtain ⟨fin, hfin, h1, h2, h3, h4, h5, h6, h7, h8, h9⟩ := ih
      { stream := { data := st.stream.data, pos := a.length + 4 + 12 * p, failbit := false,
                    log := st.stream.log ++ [(a.length, 4), (a.length + 4, 12 * p)] },
        pointdata := { NumberOfComponents := st.pointdata.NumberOfComponents,
                       MaxId := 3 * ((st.cur_idx + p : Nat) : Int) - 1,
                       mem := st.pointdata.mem ++ r.payload.map some },
        lines := st.lines ++ [index_range st.cur_idx p],
        cur_idx := st.cur_idx + p,
        cur_pts := (p : Int) }
      (a ++ r.bytes) rest n
      (fun r2 hr2 => hall r2 (List.mem_cons_of_mem r hr2))
      (by simp only []; rw [hd1]; simp)
      (by simp [TVRecord.bytes, hcnt, hpay2]; omega)
      rfl (by simpa using hsz) hlt rfl
      (by simp [hmem, hpay2]; omega)
      (by simp [TVRecord.bytes, hcnt, hpay2]; omega)
    refine ⟨fin, ?_, h1, ?_, ?_, ?_, ?_, h6, ?_, h8, h9⟩
    · have hfuel : (r :: rs).length + n = (rs.length + n) + 1 := by
        simp; omega
      rw [hfuel]
      conv_lhs => unfold get_polydata_loop
      rw [ht, if_pos (by omega), hstep]
      exact hfin
    · rw [h2]
      simp [point_counts, hp, Nat.add_assoc]
    · rw [h3]
      simp [records_payload]
    · rw [h4]
      simp [point_counts, consecutive_ranges, hp]
    · rw [h5]
      simp [point_counts, hp, Nat.add_assoc]
    · rw [h7, records_bytes_cons]
      simp [TVRecord.bytes, Nat.add_assoc]

theorem get_polydata_loop_records (filesize : Nat) (recs : List TVRecord)
    (st : DecodeState) (a : List Byte) (extra : Nat)
    (hall : ∀ r ∈ recs, r.wf ∧ r.fits_int)
    (hd : st.stream.data = a ++ records_bytes recs) (hpos : st.stream.pos = a.length)
    (hf : st.stream.failbit = false) (hsz : filesize = st.stream.data.length)
    (hlt : filesize < 2 ^ 63)
    (hmax : st.pointdata.MaxId = 3 * (st.cur_idx : Int) - 1)
    (hmem : st.pointdata.mem.length = 12 * st.cur_idx) (hidx : 12 * st.cur_idx ≤ a.length) :
    ∃ fin : DecodeState,
      get_polydata_loop filesize (recs.length + 1 + extra) st = some (fin, none) ∧
      fin.pointdata.NumberOfComponents = st.pointdata.NumberOfComponents ∧
      fin.pointdata.MaxId = 3 * ((st.cur_idx + (point_counts recs).sum : Nat) : Int) - 1 ∧
      fin.pointdata.mem = st.pointdata.mem ++ (records_payload recs).map some ∧
      fin.lines = st.lines ++ consecutive_ranges st.cur_idx (point_counts recs) ∧
      fin.stream.data = st.stream.data ∧ fin.stream.pos = filesize ∧
      fin.stream.failbit = false := by
  obtain ⟨fin, hfin, h1, h2, h3, h4, _, h6, h7, h8, _⟩ :=
    get_polydata_loop_leading_records filesize recs st a [] (extra + 1) hall (by simpa using hd) hpos hf
      hsz hlt hmax hmem hidx
  have hend : fin.stream.pos = filesize := by
    rw [h7, hsz, hd]; simp
  refine ⟨fin, ?_, h1, h2, h3, h4, h6, hend, h8⟩
  have hfuel : recs.length + 1 + extra = recs.length + (extra + 1) := by omega
  rw [hfuel, hfin]
  have ht := tellg_unsigned fin.stream h8 (by omega)
  unfold get_polydata_loop
  rw [ht, if_neg (by omega)]

/-! ## Opening a file -/

theorem TVReader.construct_opened (L : TVLayout) (f : File)
    (h : L.TV_HEADERLEN ≤ f.bytes.length) :
    TVReader.construct L (some f) =
      ((TVReader.opened L f).stream, .ok (TVReader.opened L f)) := by
  have hsz := f.size_ok
  have hu : to_unsigned 64 (f.bytes.length : Int) = f.bytes.length :=
    to_unsigned_natCast 64 _ (by omega)
  have hnot : ¬ (f.bytes.length < L.TV_HEADERLEN) := by omega
  have hmin : min L.TV_HEADERLEN f.bytes.length = L.TV_HEADERLEN := Nat.min_eq_left h
  simp [TVReader.construct, IStream.fstream, IStream.seekg_end, IStream.tellg, IStream.seekg,
    IStream.read, TVReader.opened, hu, hnot, hmin]

theorem TVReader.get_polydata_opened (L : TVLayout) (f : File) (fuel : Nat)
    (hs : (TVReader.opened L f).header.n_scalars = 0)
    (hp : (TVReader.opened L f).header.n_properties = 0) :
    (TVReader.opened L f).get_polydata L fuel =
      (get_polydata_loop f.bytes.length fuel (decode_start L f.bytes)).map
        (fun x => ({ TVReader.opened L f with stream := x.1.stream }, decode_result x)) := by
  unfold TVReader.get_polydata
  rw [if_pos ⟨hs, hp⟩]
  have hneg : ¬ ((L.TV_HEADERLEN : Int) < 0) := by omega
  have hst : ({ stream := (TVReader.opened L f).stream.seekg (L.TV_HEADERLEN : Int),
                pointdata := { vtkFloatArray.new with NumberOfComponents := TV_TRACK_NUMPTS },
                lines := [], cur_idx := 0, cur_pts := 0 } : DecodeState)
      = decode_start L f.bytes := by
    simp [TVReader.opened, IStream.seekg, vtkFloatArray.new, TV_TRACK_NUMPTS, hneg, decode_start]
  have hfs : (TVReader.opened L f).filesize = f.bytes.length := rfl
  simp only [hst, hfs]
  cases get_polydata_loop f.bytes.length fuel (decode_start L f.bytes) with
  | none => rfl
  | some x =>
    obtain ⟨st, flt⟩ := x
    cases flt <;> rfl

theorem tv_reader_load_opened (L : TVLayout) (fuel : Nat) (f : File)
    (h : L.TV_HEADERLEN ≤ f.bytes.length) :
    tv_reader_load L fuel (some f) =
      ((TVReader.opened L f).get_polydata L fuel).map (fun x => x.2) := by
  unfold tv_reader_load
  rw [TVReader.construct_opened L f h]

/-! ## Consecutive index ranges -/

theorem consecutive_ranges_length (ps : List Nat) :
    ∀ start : Nat, (consecutive_ranges start ps).length = ps.length := by
  induction ps with
  | nil => intro _; rfl
  | cons p ps ih => intro start; simp [consecutive_ranges, ih]

theorem consecutive_ranges_get (ps : List Nat) :
    ∀ (start i : Nat) (hi : i < ps.length),
      (consecutive_ranges start ps)[i]? =
        some (index_range (start + (ps.take i).sum) (ps.get ⟨i, hi⟩)) := by
  induction ps with
  | nil => intro _ i hi; simp at hi
  | cons p ps ih =>
    intro start i hi
    cases i with
    | zero => simp [consecutive_ranges]
    | succ j =>
      have hj : j < ps.length := by simpa using hi
      simp only [consecutive_ranges, List.getElem?_cons_succ, List.take_succ_cons,
        List.sum_cons, List.get_cons_succ]
      rw [ih (start + p) j hj, Nat.add_assoc]

/-! ## Decoding a well-formed file -/

theorem get_polydata_well_formed (L : TVLayout) (f : File) (hdr : List Byte)
    (recs : List TVRecord) (hlen : hdr.length = L.TV_HEADERLEN)
    (hfile : f.bytes = hdr ++ records_bytes recs)
    (hs : (TVHeader.of_bytes L hdr).n_scalars = 0)
    (hp : (TVHeader.of_bytes L hdr).n_properties = 0)
    (hall : ∀ r ∈ recs, r.wf ∧ r.fits_int) (fuel : Nat) (hfuel : recs.length + 1 ≤ fuel) :
    tv_reader_load L fuel (some f) =
      some (.ok
        { Points := some { NumberOfComponents := 3,
                           MaxId := 3 * (((point_counts recs).sum : Nat) : Int) - 1,
                           mem := (records_payload recs).map some },
          Lines := some (consecutive_ranges 0 (point_counts recs)) }) := by
  have hle : L.TV_HEADERLEN ≤ f.bytes.length := by rw [hfile]; simp [hlen]
  have hhdr : (TVReader.opened L f).header = TVHeader.of_bytes L hdr := by
    simp only [TVReader.opened]
    rw [hfile, ← hlen, List.take_left]
  rw [← hhdr] at hs hp
  rw [tv_reader_load_opened L fuel f hle]
  obtain ⟨extra, rfl⟩ : ∃ extra, fuel = recs.length + 1 + extra := ⟨fuel - (recs.length + 1), by omega⟩
  obtain ⟨fin, hfin, h1, h2, h3, h4, _, _, _⟩ := get_polydata_loop_records f.bytes.length recs
    (decode_start L f.bytes)
    hdr extra hall hfile hlen.symm rfl rfl f.size_ok (by simp [decode_start])
    (by simp [decode_start]) (by simp [decode_start])
  simp only [decode_start] at h1 h2 h3 h4
  rw [TVReader.get_polydata_opened L f _ hs hp, hfin]
  have hpd : fin.pointdata =
      ⟨3, 3 * (((point_counts recs).sum : Nat) : Int) - 1, (records_payload recs).map some⟩ := by
    have : fin.pointdata =
        ⟨fin.pointdata.NumberOfComponents, fin.pointdata.MaxId, fin.pointdata.mem⟩ := rfl
    rw [this, h1, h2, h3]
    simp
  have hl : fin.lines = consecutive_ranges 0 (point_counts recs) := by
    rw [h4]; simp
  simp only [Option.map_some', decode_result, hpd, hl]

/-! ## A record whose float count overflows `int` -/

theorem IStream.read_nonpos (s : IStream) (n : Int) (hf : s.failbit = false) (hn : n ≤ 0) :
    s.read n = ({ s with failbit := decide ((0 : Int) ≠ n),
                         log := s.log ++ [(s.pos, 0)] }, []) := by
  unfold IStream.read
  have h0 : n.toNat = 0 := Int.toNat_eq_zero.mpr hn
  simp [hf, h0]

theorem big_file_length : big_file.bytes.length = 8589935600 := by
  have h1 : zero_header.length = 1000 := List.length_replicate _ _
  have h2 : big_payload.length = 12 * 715827883 := List.length_replicate _ _
  have h3 : big_count.length = 4 := rfl
  show (zero_header ++ (big_count ++ big_payload)).length = _
  rw [List.length_append, List.length_append, h1, h2, h3]

theorem big_file_body :
    get_polydata_body
      { stream := { data := big_file.bytes, pos := 1000, failbit := false, log := [(0, 1000)] },
        pointdata := { NumberOfComponents := 3, MaxId := -1, mem := [] },
        lines := [], cur_idx := 0, cur_pts := 0 } =
      ({ stream := { data := big_file.bytes, pos := 1004, failbit := true,
                     log := [(0, 1000), (1000, 4), (1004, 0)] },
         pointdata := { NumberOfComponents := 3, MaxId := -1, mem := [] },
         lines := [iota_idlist 715827883 0], cur_idx := 715827883,
         cur_pts := 715827883 }, none) := by
  have hd : big_file.bytes = zero_header ++ big_count ++ big_payload := by
    show zero_header ++ (big_count ++ big_payload) = _
    simp
  have hr1 := IStream.read_exact
    { data := big_file.bytes, pos := 1000, failbit := false, log := [(0, 1000)] }
    zero_header big_count big_payload (SIZEOF_INT : Nat) rfl hd rfl rfl
  have hz : zero_header.length = 1000 := List.length_replicate _ _
  have hc : big_count.length = 4 := rfl
  rw [hz, hc] at hr1
  have hcp : store_int 0 big_count = 715827883 := by decide
  have hvi : to_signed 64 ((0 * TV_TRACK_NUMPTS) % 2 ^ 64) = 0 := by decide
  have hnv : to_signed 32 (to_unsigned 32 ((715827883 : Int) * (TV_TRACK_NUMPTS : Nat)))
      = -2147483647 := by decide
  have hct : to_signed 64 ((to_unsigned 64 (-2147483647 : Int) * SIZEOF_FLOAT) % 2 ^ 64)
      = -8589934588 := by decide
  have hr2 := IStream.read_nonpos
    { data := big_file.bytes, pos := 1000 + 4, failbit := false,
      log := [(0, 1000)] ++ [(1000, 4)] } (-8589934588) rfl (by decide)
  have hw : (({ NumberOfComponents := 3, MaxId := -1, mem := [] } : vtkFloatArray).WriteVoidPointer
      0 (-2147483647)).store (0 : Int).toNat []
      = { NumberOfComponents := 3, MaxId := -1, mem := [] } := by decide
  have hu : to_unsigned 64 (715827883 : Int) = 715827883 := by decide
  unfold get_polydata_body
  simp only [hr1, hcp, hvi, hnv, hct, hr2, hw, hu]
  simp

theorem big_file_loop :
    get_polydata_loop 8589935600 2
      { stream := { data := big_file.bytes, pos := 1000, failbit := false, log := [(0, 1000)] },
        pointdata := { NumberOfComponents := 3, MaxId := -1, mem := [] },
        lines := [], cur_idx := 0, cur_pts := 0 } =
      some ({ stream := { data := big_file.bytes, pos := 1004, failbit := true,
                          log := [(0, 1000), (1000, 4), (1004, 0)] },
              pointdata := { NumberOfComponents := 3, MaxId := -1, mem := [] },
              lines := [iota_idlist 715827883 0], cur_idx := 715827883,
              cur_pts := 715827883 }, none) := by
  have h1 : to_unsigned 64
      (({ data := big_file.bytes, pos := 1000, failbit := false, log := [(0, 1000)] } :
        IStream).tellg) = 1000 := by decide
  have h2 : to_unsigned 64
      (({ data := big_file.bytes, pos := 1004, failbit := true,
          log := [(0, 1000), (1000, 4), (1004, 0)] } : IStream).tellg)
      = 18446744073709551615 := by decide
  unfold get_polydata_loop
  rw [h1, if_pos (by decide), big_file_body]
  simp only []
  unfold get_polydata_loop
  rw [h2, if_neg (by decide)]

theorem big_file_decode :
    tv_reader_load trackvis_layout 2 (some big_file) =
      some (.ok { Points := some { NumberOfComponents := 3, MaxId := -1, mem := [] },
                  Lines := some [iota_idlist 715827883 0] }) := by
  have hlen := big_file_length
  have hz : zero_header.length = 1000 := List.length_replicate _ _
  have hhdr : (TVReader.opened trackvis_layout big_file).header
      = TVHeader.of_bytes trackvis_layout zero_header := by
    show TVHeader.of_bytes trackvis_layout
      (List.take 1000 (zero_header ++ (big_count ++ big_payload))) = _
    rw [← hz, List.take_left]
  have hs : (TVReader.opened trackvis_layout big_file).header.n_scalars = 0 := by
    rw [hhdr]; decide
  have hp : (TVReader.opened trackvis_layout big_file).header.n_properties = 0 := by
    rw [hhdr]; decide
  have hL : trackvis_layout.TV_HEADERLEN = 1000 := rfl
  have hst : decode_start trackvis_layout big_file.bytes =
      { stream := { data := big_file.bytes, pos := 1000, failbit := false, log := [(0, 1000)] },
        pointdata := { NumberOfComponents := 3, MaxId := -1, mem := [] },
        lines := [], cur_idx := 0, cur_pts := 0 } := rfl
  rw [tv_reader_load_opened trackvis_layout 2 big_file (by rw [hlen]; decide),
    TVReader.get_polydata_opened trackvis_layout big_file 2 hs hp, hlen, hst, big_file_loop]
  simp only [Option.map_some', decode_result]

theorem big_record_point_count : big_record.point_count = 715827883 := by decide

theorem big_record_wf : big_record.wf := by
  refine ⟨rfl, ?_, ?_⟩
  · rw [big_record_point_count]; decide
  · rw [big_record_point_count]
    exact List.length_replicate _ _

theorem big_file_records : big_file.bytes = zero_header ++ records_bytes [big_record] := by
  show zero_header ++ (big_count ++ big_payload) = _
  simp [records_bytes, TVRecord.bytes, big_record]

/-! ## Invariants of the decode loop on an arbitrary file -/

theorem IStream.read_data (s : IStream) (n : Int) : (s.read n).1.data = s.data := by
  unfold IStream.read
  split <;> rfl

theorem IStream.read_in_bounds (s : IStream) (n : Int) (h : s.in_bounds) :
    (s.read n).1.in_bounds := by
  unfold IStream.read
  split
  · exact h
  · obtain ⟨hp, hl⟩ := h
    have hlen : ((s.data.drop s.pos).take n.toNat).length ≤ s.data.length - s.pos := by
      rw [List.length_take, List.length_drop]
      exact Nat.min_le_right _ _
    refine ⟨?_, ?_⟩
    · show s.pos + _ ≤ s.data.length
      omega
    · intro e he
      simp only [List.mem_append, List.mem_singleton] at he
      rcases he with he | he
      · exact hl e he
      · subst he
        show s.pos + _ ≤ s.data.length
        omega

theorem IStream.read_remaining_le (s : IStream) (n : Int) :
    (s.read n).1.remaining ≤ s.remaining := by
  unfold IStream.read
  split
  · exact Nat.le_refl _
  · rename_i hf
    simp only [IStream.remaining, hf]
    split
    · exact Nat.zero_le _
    · simp only [Bool.false_eq_true, if_false]
      omega

theorem IStream.read_int_remaining_lt (s : IStream) (hf : s.failbit = false)
    (hp : s.pos < s.data.length) :
    (s.read (SIZEOF_INT : Nat)).1.remaining < s.remaining := by
  unfold IStream.read
  simp only [hf, Bool.false_eq_true, if_false, IStream.remaining]
  have hlen : ((s.data.drop s.pos).take ((SIZEOF_INT : Nat) : Int).toNat).length
      = min 4 (s.data.length - s.pos) := by
    rw [List.length_take, List.length_drop]; rfl
  split
  · omega
  · rw [hlen]
    have : 1 ≤ min 4 (s.data.length - s.pos) := le_min (by omega) (by omega)
    omega

theorem get_polydata_body_stream (st : DecodeState) :
    ∃ n : Int, (get_polydata_body st).1.stream =
      ((st.stream.read (SIZEOF_INT : Nat)).1.read n).1 := by
  refine ⟨to_signed 64 ((to_unsigned 64 (to_signed 32 (to_unsigned 32
    (store_int st.cur_pts (st.stream.read (SIZEOF_INT : Nat)).2 * (TV_TRACK_NUMPTS : Nat))))
    * SIZEOF_FLOAT) % 2 ^ 64), ?_⟩
  unfold get_polydata_body
  simp only []
  split
  · rfl
  · split <;> rfl

theorem get_polydata_loop_in_bounds (filesize : Nat) :
    ∀ (fuel : Nat) (st fin : DecodeState) (e : Option Fault),
      st.stream.in_bounds → get_polydata_loop filesize fuel st = some (fin, e) →
      fin.stream.in_bounds ∧ fin.stream.data = st.stream.data := by
  intro fuel
  induction fuel with
  | zero => intro st fin e _ h; simp [get_polydata_loop] at h
  | succ k ih =>
    intro st fin e hin h
    unfold get_polydata_loop at h
    obtain ⟨n, hn⟩ := get_polydata_body_stream st
    have hb : (get_polydata_body st).1.stream.in_bounds := by
      rw [hn]
      exact IStream.read_in_bounds _ _ (IStream.read_in_bounds _ _ hin)
    have hdat : (get_polydata_body st).1.stream.data = st.stream.data := by
      rw [hn, IStream.read_data, IStream.read_data]
    split at h
    · split at h
      · rename_i st1 flt heq
        simp only [Option.some.injEq, Prod.mk.injEq] at h
        obtain ⟨h1, _⟩ := h
        subst h1
        rw [heq] at hb hdat
        exact ⟨hb, hdat⟩
      · rename_i st1 heq
        rw [heq] at hb hdat
        obtain ⟨r1, r2⟩ := ih st1 fin e hb h
        exact ⟨r1, r2.trans hdat⟩
    · simp only [Option.some.injEq, Prod.mk.injEq] at h
      obtain ⟨h1, _⟩ := h
      subst h1
      exact ⟨hin, rfl⟩

theorem get_polydata_loop_terminates (filesize : Nat) (hlt : filesize < 2 ^ 63) :
    ∀ (fuel : Nat) (st : DecodeState),
      st.stream.data.length = filesize → st.stream.in_bounds →
      st.stream.remaining < fuel →
      ∃ res, get_polydata_loop filesize fuel st = some res := by
  intro fuel
  induction fuel with
  | zero => intro st _ _ h; omega
  | succ k ih =>
    intro st hlen hin hrem
    unfold get_polydata_loop
    split
    · rename_i hcond
      -- the stream is good and before the end of the file
      have hf : st.stream.failbit = false := by
        by_contra hne
        have ht : st.stream.failbit = true := by simpa using hne
        have : to_unsigned 64 st.stream.tellg = 18446744073709551615 := by
          unfold IStream.tellg; rw [if_pos ht]; decide
        omega
      have hpos := hin.1
      have ht := tellg_unsigned st.stream hf (by omega)
      rw [ht] at hcond
      obtain ⟨n, hn⟩ := get_polydata_body_stream st
      have hlt2 : (get_polydata_body st).1.stream.remaining < st.stream.remaining := by
        rw [hn]
        exact Nat.lt_of_le_of_lt (IStream.read_remaining_le _ _)
          (IStream.read_int_remaining_lt st.stream hf (by omega))
      have hin2 : (get_polydata_body st).1.stream.in_bounds := by
        rw [hn]
        exact IStream.read_in_bounds _ _ (IStream.read_in_bounds _ _ hin)
      have hdat : (get_polydata_body st).1.stream.data.length = filesize := by
        rw [hn, IStream.read_data, IStream.read_data, hlen]
      split
      · exact ⟨_, rfl⟩
      · rename_i st1 heq
        rw [heq] at hlt2 hin2 hdat
        simp only [] at hlt2 hin2 hdat
        exact ih st1 hdat hin2 (by omega)
    · exact ⟨_, rfl⟩

/-! ## The decode loop only looks at the bytes from the get position on -/

theorem IStream.read_with_data (s : IStream) (d : List Byte) (n : Int)
    (h : s.data.drop s.pos = d.drop s.pos) :
    (s.with_data d).read n = ((s.read n).1.with_data d, (s.read n).2) ∧
    (s.read n).1.data.drop (s.read n).1.pos = d.drop (s.read n).1.pos := by
  unfold IStream.read IStream.with_data
  cases hf : s.failbit with
  | true => simpa [hf] using h
  | false =>
    simp only [Bool.false_eq_true, if_false, h, hf, true_and]
    show List.drop (s.pos + _) s.data = List.drop (s.pos + _) d
    rw [← List.drop_drop, ← List.drop_drop, h]

theorem get_polydata_body_with_data (st : DecodeState) (d : List Byte)
    (h : st.stream.data.drop st.stream.pos = d.drop st.stream.pos) :
    get_polydata_body (st.with_data d) =
      ((get_polydata_body st).1.with_data d, (get_polydata_body st).2) ∧
    (get_polydata_body st).1.stream.data.drop (get_polydata_body st).1.stream.pos
      = d.drop (get_polydata_body st).1.stream.pos := by
  obtain ⟨h1, h1s⟩ := IStream.read_with_data st.stream d (SIZEOF_INT : Nat) h
  have h2 := fun n => IStream.read_with_data (st.stream.read (SIZEOF_INT : Nat)).1 d n h1s
  unfold get_polydata_body
  simp only [DecodeState.with_data, h1, (h2 _).1]
  split
  · exact ⟨rfl, (h2 _).2⟩
  · split
    · exact ⟨rfl, (h2 _).2⟩
    · exact ⟨rfl, (h2 _).2⟩

theorem get_polydata_loop_with_data (filesize : Nat) (d : List Byte) :
    ∀ (fuel : Nat) (st : DecodeState),
      st.stream.data.drop st.stream.pos = d.drop st.stream.pos →
      get_polydata_loop filesize fuel (st.with_data d) =
        (get_polydata_loop filesize fuel st).map (fun x => (x.1.with_data d, x.2)) := by
  intro fuel
  induction fuel with
  | zero => intro st _; rfl
  | succ k ih =>
    intro st h
    obtain ⟨hb, hs⟩ := get_polydata_body_with_data st d h
    have ht : (st.with_data d).stream.tellg = st.stream.tellg := rfl
    unfold get_polydata_loop
    rw [ht, hb]
    split
    · cases hres : get_polydata_body st with
      | mk st1 flt =>
        rw [hres] at hs
        cases flt with
        | none => exact ih st1 hs
        | some e => rfl
    · rfl

theorem take_drop_take {α : Type} (x : List α) (o l m : Nat) (h : o + l ≤ m) :
    ((x.take m).drop o).take l = (x.drop o).take l := by
  rw [List.drop_take, List.take_take, Nat.min_eq_left (by omega)]

theorem header_field_of_take (x : List Byte) (o l m a : Nat) (h : o + l ≤ m) (hm : m ≤ a) :
    header_field (x.take a) o l = header_field (x.take m) o l := by
  unfold header_field
  rw [take_drop_take x o l a (by omega), take_drop_take x o l m h]

theorem header_field_of_drop (x y : List Byte) (o l e a : Nat) (h : e ≤ o)
    (ha : o + l ≤ a) (hxy : x.drop e = y.drop e) :
    header_field (x.take a) o l = header_field (y.take a) o l := by
  unfold header_field
  rw [take_drop_take x o l a ha, take_drop_take y o l a ha]
  have hx : x.drop o = (x.drop e).drop (o - e) := by
    rw [List.drop_drop]; congr 1; omega
  have hy : y.drop o = (y.drop e).drop (o - e) := by
    rw [List.drop_drop]; congr 1; omega
  rw [hx, hy, hxy]

theorem header_field_outside (L : TVLayout) (x y : List Byte) (o l : Nat)
    (hin : o + l ≤ L.TV_HEADERLEN)
    (hout : o + l ≤ L.n_count_off ∨ L.n_count_off + L.n_count_len ≤ o)
    (hcnt : L.n_count_off + L.n_count_len ≤ L.TV_HEADERLEN)
    (hpre : x.take L.n_count_off = y.take L.n_count_off)
    (hpost : x.drop (L.n_count_off + L.n_count_len) = y.drop (L.n_count_off + L.n_count_len)) :
    header_field (x.take L.TV_HEADERLEN) o l = header_field (y.take L.TV_HEADERLEN) o l := by
  rcases hout with h | h
  · rw [header_field_of_take x o l L.n_count_off L.TV_HEADERLEN h (by omega),
      header_field_of_take y o l L.n_count_off L.TV_HEADERLEN h (by omega), hpre]
  · exact header_field_of_drop x y o l _ L.TV_HEADERLEN h hin hpost

theorem TVReader.construct_short (L : TVLayout) (f : File)
    (h : f.bytes.length < L.TV_HEADERLEN) :
    TVReader.construct L (some f) =
      ({ data := f.bytes, pos := f.bytes.length, failbit := false, log := [] },
        .error .terminate) := by
  have hsz := f.size_ok
  have hu : to_unsigned 64 (f.bytes.length : Int) = f.bytes.length :=
    to_unsigned_natCast 64 _ (by omega)
  simp [TVReader.construct, IStream.fstream, IStream.seekg_end, IStream.tellg, hu, h]

theorem tv_reader_load_eq_loop (L : TVLayout) (fuel : Nat) (f : File)
    (hle : L.TV_HEADERLEN ≤ f.bytes.length) :
    tv_reader_load L fuel (some f) =
      if (TVReader.opened L f).header.n_scalars = 0 ∧
          (TVReader.opened L f).header.n_properties = 0 then
        (get_polydata_loop f.bytes.length fuel (decode_start L f.bytes)).map decode_result
      else some (.ok vtkPolyData.new) := by
  rw [tv_reader_load_opened L fuel f hle]
  split
  · rename_i hz
    rw [TVReader.get_polydata_opened L f fuel hz.1 hz.2, Option.map_map]
    rfl
  · rename_i hz
    unfold TVReader.get_polydata
    rw [if_neg hz]
    rfl

theorem tv_reader_load_terminates (L : TVLayout) (fuel : Nat) (f : File)
    (hfuel : f.bytes.length < fuel) :
    ∃ res, tv_reader_load L fuel (some f) = some res := by
  by_cases hle : L.TV_HEADERLEN ≤ f.bytes.length
  · rw [tv_reader_load_eq_loop L fuel f hle]
    split
    · obtain ⟨res, hres⟩ := get_polydata_loop_terminates f.bytes.length f.size_ok fuel
        (decode_start L f.bytes) rfl
        ⟨hle, by
          intro e he
          simp only [decode_start, List.mem_singleton] at he
          subst he
          simpa using hle⟩
        (by
          simp only [IStream.remaining, decode_start, Bool.false_eq_true, if_false]
          omega)
      exact ⟨_, by rw [hres]; rfl⟩
    · exact ⟨_, rfl⟩
  · refine ⟨.error .terminate, ?_⟩
    unfold tv_reader_load
    rw [TVReader.construct_short L f (by omega)]

theorem tv_reader_load_congr (L : TVLayout) (hL : L.wf) (f1 f2 : File)
    (hlen : f1.bytes.length = f2.bytes.length)
    (hpre : f1.bytes.take L.n_count_off = f2.bytes.take L.n_count_off)
    (hpost : f1.bytes.drop (L.n_count_off + L.n_count_len)
      = f2.bytes.drop (L.n_count_off + L.n_count_len))
    (fuel : Nat) :
    tv_reader_load L fuel (some f1) = tv_reader_load L fuel (some f2) := by
  obtain ⟨hs, hp, hc, hso, hpo⟩ := hL
  by_cases hle : L.TV_HEADERLEN ≤ f1.bytes.length
  · have hle2 : L.TV_HEADERLEN ≤ f2.bytes.length := by omega
    rw [tv_reader_load_eq_loop L fuel f1 hle, tv_reader_load_eq_loop L fuel f2 hle2]
    have h1 : (TVReader.opened L f1).header.n_scalars = (TVReader.opened L f2).header.n_scalars :=
      header_field_outside L f1.bytes f2.bytes _ _ hs hso hc hpre hpost
    have h2 : (TVReader.opened L f1).header.n_properties
        = (TVReader.opened L f2).header.n_properties :=
      header_field_outside L f1.bytes f2.bytes _ _ hp hpo hc hpre hpost
    have hd : f1.bytes.drop L.TV_HEADERLEN = f2.bytes.drop L.TV_HEADERLEN := by
      have e1 : f1.bytes.drop L.TV_HEADERLEN = (f1.bytes.drop (L.n_count_off + L.n_count_len)).drop
          (L.TV_HEADERLEN - (L.n_count_off + L.n_count_len)) := by
        rw [List.drop_drop]; congr 1; omega
      have e2 : f2.bytes.drop L.TV_HEADERLEN = (f2.bytes.drop (L.n_count_off + L.n_count_len)).drop
          (L.TV_HEADERLEN - (L.n_count_off + L.n_count_len)) := by
        rw [List.drop_drop]; congr 1; omega
      rw [e1, e2, hpost]
    have hloop := get_polydata_loop_with_data f1.bytes.length f2.bytes fuel
      (decode_start L f1.bytes) hd
    have hst : (decode_start L f1.bytes).with_data f2.bytes = decode_start L f2.bytes := rfl
    rw [hst] at hloop
    rw [h1, h2, ← hlen, hloop, Option.map_map]
    congr 1
  · unfold tv_reader_load
    rw [TVReader.construct_short L f1 (by omega), TVReader.construct_short L f2 (by omega)]

/-! ## A malformed record: negative count, or cut short by the end of the file -/

theorem IStream.read_short (s : IStream) (a b : List Byte) (n : Nat)
    (hf : s.failbit = false) (hd : s.data = a ++ b) (hp : s.pos = a.length)
    (hn : b.length < n) :
    s.read (n : Int) = ({ s with pos := a.length + b.length, failbit := true,
                                 log := s.log ++ [(a.length, b.length)] }, b) := by
  unfold IStream.read
  have ht : List.take n b = b := List.take_of_length_le (by omega)
  have hne : ¬ ((b.length : Int) = (n : Int)) := by omega
  simp [hf, hd, hp, ht, hne]

theorem write_store_short (a : vtkFloatArray) (c p : Nat) (got : List Byte)
    (hmax : a.MaxId = 3 * (c : Int) - 1) (hmem : a.mem.length = 12 * c) :
    (a.WriteVoidPointer (3 * c : Nat) (3 * p : Nat)).store (3 * c) got =
      { NumberOfComponents := a.NumberOfComponents,
        MaxId := 3 * ((c + p : Nat) : Int) - 1,
        mem := a.mem ++ got.map some ++ List.replicate (12 * p - got.length) none } := by
  have hm : max a.MaxId (((3 * c : Nat) : Int) + ((3 * p : Nat) : Int) - 1)
      = 3 * ((c + p : Nat) : Int) - 1 := by
    rw [hmax]; push_cast; omega
  have hn : (3 * ((c + p : Nat) : Int) - 1 + 1).toNat = 3 * (c + p) := by
    have : 3 * ((c + p : Nat) : Int) - 1 + 1 = ((3 * (c + p) : Nat) : Int) := by
      push_cast; ring
    rw [this, Int.toNat_ofNat]
  unfold vtkFloatArray.store vtkFloatArray.WriteVoidPointer
  simp only [hm, hn, SIZEOF_FLOAT]
  congr 1
  have h1 : 4 * (3 * c) = a.mem.length := by omega
  have h2 : 4 * (3 * (c + p)) - a.mem.length = 12 * p := by omega
  rw [h1, h2, List.take_left, List.drop_append, List.drop_replicate]

theorem get_polydata_body_negative (st : DecodeState) (a cnt rest : List Byte)
    (hcnt : cnt.length = 4) (hneg : to_signed 32 (le_nat cnt) < 0)
    (hd : st.stream.data = a ++ cnt ++ rest) (hpos : st.stream.pos = a.length)
    (hf : st.stream.failbit = false) (hb : 3 * st.cur_idx < 2 ^ 63) :
    (get_polydata_body st).2 = some .length_error := by
  have hr1 := IStream.read_exact st.stream a cnt rest (SIZEOF_INT : Nat)
    hf hd hpos (by rw [hcnt]; rfl)
  have hcp : store_int st.cur_pts cnt = to_signed 32 (le_nat cnt) := store_int_full _ _ hcnt
  have hvi : to_signed 64 ((st.cur_idx * TV_TRACK_NUMPTS) % 2 ^ 64) = ((3 * st.cur_idx : Nat) : Int) := by
    have : st.cur_idx * TV_TRACK_NUMPTS = 3 * st.cur_idx := by simp [TV_TRACK_NUMPTS, Nat.mul_comm]
    rw [this, Nat.mod_eq_of_lt (by omega), to_signed_of_lt _ _ (by norm_num; omega)]
  unfold get_polydata_body
  simp only [hr1, hcp, hvi]
  have hnot : ∀ l : List Byte, ¬ (((3 * st.cur_idx : Nat) : Int) < 0 ∧ l ≠ []) := by
    intro l h; have := h.1; omega
  rw [if_neg (hnot _), if_pos hneg]

theorem get_polydata_body_truncated (st : DecodeState) (a cnt rest : List Byte) (p : Nat)
    (hcnt : cnt.length = 4) (hp : to_signed 32 (le_nat cnt) = (p : Int))
    (hfit : 3 * p < 2 ^ 31) (hshort : rest.length < 12 * p)
    (hd : st.stream.data = a ++ cnt ++ rest) (hpos : st.stream.pos = a.length)
    (hf : st.stream.failbit = false)
    (hmax : st.pointdata.MaxId = 3 * (st.cur_idx : Int) - 1)
    (hmem : st.pointdata.mem.length = 12 * st.cur_idx)
    (hb : 3 * (st.cur_idx + p) < 2 ^ 63) :
    get_polydata_body st =
      ({ stream := { data := st.stream.data, pos := a.length + 4 + rest.length, failbit := true,
                     log := st.stream.log ++ [(a.length, 4), (a.length + 4, rest.length)] },
         pointdata := { NumberOfComponents := st.pointdata.NumberOfComponents,
                        MaxId := 3 * ((st.cur_idx + p : Nat) : Int) - 1,
                        mem := st.pointdata.mem ++ rest.map some ++
                          List.replicate (12 * p - rest.length) none },
         lines := st.lines ++ [index_range st.cur_idx p],
         cur_idx := st.cur_idx + p,
         cur_pts := (p : Int) }, none) := by
  have hr1 := IStream.read_exact st.stream a cnt rest (SIZEOF_INT : Nat)
    hf hd hpos (by rw [hcnt]; rfl)
  have hr2 : ({ data := st.stream.data, pos := a.length + 4, failbit := false,
                log := st.stream.log ++ [(a.length, 4)] } : IStream).read ((12 * p : Nat) : Int)
      = ({ data := st.stream.data, pos := a.length + 4 + rest.length, failbit := true,
           log := st.stream.log ++ [(a.length, 4), (a.length + 4, rest.length)] }, rest) := by
    have h := IStream.read_short
      { data := st.stream.data, pos := a.length + 4, failbit := false,
        log := st.stream.log ++ [(a.length, 4)] }
      (a ++ cnt) rest (12 * p) rfl hd (by simp [hcnt]) hshort
    rw [h]
    simp [hcnt]
  have hcp : store_int st.cur_pts cnt = (p : Int) := by
    rw [store_int_full _ _ hcnt]; exact hp
  have hvi : to_signed 64 ((st.cur_idx * TV_TRACK_NUMPTS) % 2 ^ 64) = ((3 * st.cur_idx : Nat) : Int) := by
    have : st.cur_idx * TV_TRACK_NUMPTS = 3 * st.cur_idx := by simp [TV_TRACK_NUMPTS, Nat.mul_comm]
    rw [this, Nat.mod_eq_of_lt (by omega), to_signed_of_lt _ _ (by norm_num; omega)]
  have hnv : to_signed 32 (to_unsigned 32 ((p : Int) * (TV_TRACK_NUMPTS : Nat))) = ((3 * p : Nat) : Int) := by
    have : (p : Int) * (TV_TRACK_NUMPTS : Nat) = ((3 * p : Nat) : Int) := by
      simp [TV_TRACK_NUMPTS, Int.mul_comm]
    rw [this, to_unsigned_natCast _ _ (by omega), to_signed_of_lt _ _ (by norm_num; omega)]
  have hct : to_signed 64 ((to_unsigned 64 ((3 * p : Nat) : Int) * SIZEOF_FLOAT) % 2 ^ 64)
      = ((12 * p : Nat) : Int) := by
    rw [to_unsigned_natCast _ _ (by omega)]
    have : 3 * p * SIZEOF_FLOAT = 12 * p := by simp [SIZEOF_FLOAT]; omega
    rw [this, Nat.mod_eq_of_lt (by omega), to_signed_of_lt _ _ (by norm_num; omega)]
  have hui : to_unsigned 64 (p : Int) = p := to_unsigned_natCast _ _ (by omega)
  have hws := write_store_short st.pointdata st.cur_idx p rest hmax hmem
  unfold get_polydata_body
  simp only [hr1, hcp, hvi, hnv, hct, hcnt, hr2, hui]
  have hneg : ¬ (((3 * st.cur_idx : Nat) : Int) < 0 ∧ rest ≠ []) := by
    intro h; have := h.1; omega
  have hneg2 : ¬ ((p : Int) < 0) := by omega
  rw [if_neg hneg, if_neg hneg2, Int.toNat_ofNat, Int.toNat_ofNat, hws,
    iota_idlist_eq p st.cur_idx (by omega), Nat.mod_eq_of_lt (by omega)]

theorem consecutive_ranges_append (ps : List Nat) (p : Nat) :
    ∀ start : Nat, consecutive_ranges start (ps ++ [p]) =
      consecutive_ranges start ps ++ [index_range (start + ps.sum) p] := by
  induction ps with
  | nil => intro start; simp [consecutive_ranges]
  | cons q qs ih =>
    intro start
    simp [consecutive_ranges, ih, Nat.add_assoc]

theorem tv_reader_load_leading_records (L : TVLayout) (f : File) (hdr rest : List Byte)
    (recs : List TVRecord) (hlen : hdr.length = L.TV_HEADERLEN)
    (hfile : f.bytes = hdr ++ records_bytes recs ++ rest)
    (hs : (TVHeader.of_bytes L hdr).n_scalars = 0)
    (hp : (TVHeader.of_bytes L hdr).n_properties = 0)
    (hall : ∀ r ∈ recs, r.wf ∧ r.fits_int) (n : Nat) :
    ∃ fin : DecodeState,
      tv_reader_load L (recs.length + n) (some f) =
        (get_polydata_loop f.bytes.length n fin).map decode_result ∧
      fin.pointdata.NumberOfComponents = 3 ∧
      fin.pointdata.MaxId = 3 * (((point_counts recs).sum : Nat) : Int) - 1 ∧
      fin.pointdata.mem = (records_payload recs).map some ∧
      fin.lines = consecutive_ranges 0 (point_counts recs) ∧
      fin.cur_idx = (point_counts recs).sum ∧
      fin.stream.data = hdr ++ records_bytes recs ++ rest ∧
      fin.stream.pos = (hdr ++ records_bytes recs).length ∧
      fin.stream.failbit = false ∧
      12 * fin.cur_idx ≤ fin.stream.pos := by
  have hle : L.TV_HEADERLEN ≤ f.bytes.length := by rw [hfile]; simp [hlen]
  have hhdr : (TVReader.opened L f).header = TVHeader.of_bytes L hdr := by
    simp only [TVReader.opened]
    rw [hfile, List.append_assoc, ← hlen, List.take_left]
  rw [← hhdr] at hs hp
  obtain ⟨fin, hfin, h1, h2, h3, h4, h5, h6, h7, h8, h9⟩ :=
    get_polydata_loop_leading_records f.bytes.length recs (decode_start L f.bytes) hdr rest n hall
      hfile hlen.symm rfl rfl f.size_ok (by simp [decode_start]) (by simp [decode_start])
      (by simp [decode_start])
  simp only [decode_start] at h1 h2 h3 h4 h5 h6 h7
  refine ⟨fin, ?_, h1, ?_, ?_, ?_, ?_, ?_, ?_, h8, h9⟩
  · rw [tv_reader_load_eq_loop L _ f hle, if_pos ⟨hs, hp⟩, hfin]
  · rw [h2]; simp
  · rw [h3]; simp
  · rw [h4]; simp
  · rw [h5]; simp
  · rw [h6, hfile]
  · rw [h7]; simp

theorem tv_reader_load_negative (L : TVLayout) (f : File) (hdr cnt rest : List Byte)
    (recs : List TVRecord) (hlen : hdr.length = L.TV_HEADERLEN)
    (hfile : f.bytes = hdr ++ records_bytes recs ++ cnt ++ rest)
    (hs : (TVHeader.of_bytes L hdr).n_scalars = 0)
    (hp : (TVHeader.of_bytes L hdr).n_properties = 0)
    (hall : ∀ r ∈ recs, r.wf ∧ r.fits_int) (hcnt : cnt.length = 4)
    (hneg : to_signed 32 (le_nat cnt) < 0) (fuel : Nat) (hfuel : recs.length + 1 ≤ fuel) :
    tv_reader_load L fuel (some f) = some (.error .length_error) := by
  obtain ⟨n, rfl⟩ : ∃ n, fuel = recs.length + (n + 1) := ⟨fuel - (recs.length + 1), by omega⟩
  have hsz := f.size_ok
  have hfile2 : f.bytes = hdr ++ records_bytes recs ++ (cnt ++ rest) := by rw [hfile]; simp
  obtain ⟨fin, hload, _, _, _, _, _, h6, h7, h8, h9⟩ :=
    tv_reader_load_leading_records L f hdr (cnt ++ rest) recs hlen hfile2 hs hp hall (n + 1)
  have hflen : f.bytes.length = (hdr ++ records_bytes recs).length + 4 + rest.length := by
    rw [hfile]; simp [hcnt]; omega
  have ht := tellg_unsigned fin.stream h8 (by omega)
  have hbody := get_polydata_body_negative fin (hdr ++ records_bytes recs) cnt rest hcnt hneg
    (by rw [h6]; simp) h7 h8 (by omega)
  rw [hload]
  unfold get_polydata_loop
  rw [ht, if_pos (by omega)]
  cases hb : get_polydata_body fin with
  | mk st1 flt =>
    rw [hb] at hbody
    simp only [] at hbody
    subst hbody
    rfl

theorem tv_reader_load_truncated (L : TVLayout) (f : File) (hdr cnt rest : List Byte)
    (recs : List TVRecord) (hlen : hdr.length = L.TV_HEADERLEN)
    (hfile : f.bytes = hdr ++ records_bytes recs ++ cnt ++ rest)
    (hs : (TVHeader.of_bytes L hdr).n_scalars = 0)
    (hp : (TVHeader.of_bytes L hdr).n_properties = 0)
    (hall : ∀ r ∈ recs, r.wf ∧ r.fits_int) (hcnt : cnt.length = 4)
    (p : Nat) (hpc : to_signed 32 (le_nat cnt) = (p : Int)) (hfit : 3 * p < 2 ^ 31)
    (hshort : rest.length < 12 * p) (fuel : Nat) (hfuel : recs.length + 2 ≤ fuel) :
    tv_reader_load L fuel (some f) = some (.ok
      { Points := some { NumberOfComponents := 3,
                         MaxId := 3 * ((((point_counts recs).sum + p : Nat)) : Int) - 1,
                         mem := (records_payload recs).map some ++ rest.map some ++
                           List.replicate (12 * p - rest.length) none },
        Lines := some (consecutive_ranges 0 (point_counts recs ++ [p])) }) := by
  obtain ⟨n, rfl⟩ : ∃ n, fuel = recs.length + (n + 1 + 1) := ⟨fuel - (recs.length + 2), by omega⟩
  have hsz := f.size_ok
  have hfile2 : f.bytes = hdr ++ records_bytes recs ++ (cnt ++ rest) := by rw [hfile]; simp
  obtain ⟨fin, hload, h1, h2, h3, h4, h5, h6, h7, h8, h9⟩ :=
    tv_reader_load_leading_records L f hdr (cnt ++ rest) recs hlen hfile2 hs hp hall (n + 1 + 1)
  have hflen : f.bytes.length = (hdr ++ records_bytes recs).length + 4 + rest.length := by
    rw [hfile]; simp [hcnt]; omega
  have ht := tellg_unsigned fin.stream h8 (by omega)
  have hbody := get_polydata_body_truncated fin (hdr ++ records_bytes recs) cnt rest p hcnt hpc
    hfit hshort (by rw [h6]; simp) h7 h8 (by rw [h2, h5]) (by rw [h3, h5]; simp [records_payload_length recs hall])
    (by omega)
  rw [hload]
  unfold get_polydata_loop
  rw [ht, if_pos (by omega), hbody]
  simp only []
  unfold get_polydata_loop
  have ht2 : ∀ s : IStream, s.failbit = true → to_unsigned 64 s.tellg = 18446744073709551615 := by
    intro s hs2
    unfold IStream.tellg; rw [if_pos hs2]; decide
  rw [ht2 _ rfl, if_neg (by omega)]
  simp only [Option.map_some', decode_result, h1, h3, h4, h5, consecutive_ranges_append,
    Nat.zero_add]

/-! ## `read_track` on a freshly opened reader -/

theorem read_track_loop_spins (n : Nat) (r : TVReader) (cur_offset : Nat)
    (hn : r.offsets.length < n) (hc : cur_offset ≥ r.filesize) :
    ∀ fuel : Nat, read_track_loop n fuel r cur_offset = none := by
  intro fuel
  induction fuel with
  | zero => rfl
  | succ k ih =>
    unfold read_track_loop
    rw [if_pos hn, if_pos hc]
    exact ih

theorem read_track_zero (L : TVLayout) (f : File) (fuel : Nat) :
    (TVReader.opened L f).read_track L (fuel + 1) 0 =
      some (.ok (TVReader.opened L f, none)) := by
  simp [TVReader.read_track, read_track_loop, TVReader.opened]

/-! # The claims -/

/-- C1 (amended): for a file whose header has `n_scalars = n_properties = 0`
and whose body is exactly `k` well-formed records with point counts
`[p0, ..., p_{k-1}]`, each `pi >= 0` with `3 * pi` representable as an `int`,
constructing the reader and calling `get_polydata` returns (for any fuel of at
least `k + 1` loop tests) a polydata with exactly `sum pi` points and exactly
`k` polylines, polyline `i` being the index range
`[p0 + ... + p_{i-1}, p0 + ... + p_i)`. -/
theorem decode_all_points_and_polylines (L : TVLayout) (f : File) (hdr : List Byte)
    (recs : List TVRecord) (hlen : hdr.length = L.TV_HEADERLEN)
    (hfile : f.bytes = hdr ++ records_bytes recs)
    (hs : (TVHeader.of_bytes L hdr).n_scalars = 0)
    (hp : (TVHeader.of_bytes L hdr).n_properties = 0)
    (hall : ∀ r ∈ recs, r.wf ∧ r.fits_int) (fuel : Nat) (hfuel : recs.length + 1 ≤ fuel) :
    ∃ (pd : vtkPolyData) (lines : vtkCellArray),
      tv_reader_load L fuel (some f) = some (.ok pd) ∧
      pd.GetNumberOfPoints = (point_counts recs).sum ∧
      pd.Lines = some lines ∧ pd.GetNumberOfLines = recs.length ∧
      ∀ (i : Nat) (hi : i < (point_counts recs).length),
        lines[i]? = some (index_range (((point_counts recs).take i).sum)
          ((point_counts recs).get ⟨i, hi⟩)) := by
  refine ⟨_, _, get_polydata_well_formed L f hdr recs hlen hfile hs hp hall fuel hfuel,
    ?_, rfl, ?_, ?_⟩
  · simp only [vtkPolyData.GetNumberOfPoints, vtkFloatArray.GetNumberOfTuples]
    have : 3 * (((point_counts recs).sum : Nat) : Int) - 1 + 1
        = ((3 * (point_counts recs).sum : Nat) : Int) := by push_cast; ring
    rw [this, Int.toNat_ofNat]
    omega
  · simp [vtkPolyData.GetNumberOfLines, consecutive_ranges_length, point_counts]
  · intro i hi
    rw [consecutive_ranges_get (point_counts recs) 0 i hi, Nat.zero_add]

/-- C1, witness: the header followed by a record of 3 points and a record of
2 points decodes to 5 points and the polylines `[0,3)` and `[3,5)`. -/
theorem decode_all_points_and_polylines_witness :
    ∃ (pd : vtkPolyData) (lines : vtkCellArray),
      tv_reader_load trackvis_layout 3 (some two_track_file) = some (.ok pd) ∧
      pd.GetNumberOfPoints = 5 ∧
      pd.Lines = some lines ∧ pd.GetNumberOfLines = 2 ∧
      ∀ (i : Nat) (hi : i < [3, 2].length),
        lines[i]? = some (index_range ((([3, 2] : List Nat).take i).sum)
          (([3, 2] : List Nat).get ⟨i, hi⟩)) :=
  decode_all_points_and_polylines trackvis_layout two_track_file zero_header
    [record_3, record_2] (by decide) rfl (by decide) (by decide) (by decide) 3 (by decide)

/-- C1, counterexample: `big_file` is the header followed by one well-formed
record of 715827883 points; the `int` product `cur_pts * TV_TRACK_NUMPTS`
wraps to `-2147483647`, nothing is read into the float array, and
`get_polydata` returns a polydata with 0 points instead of 715827883. -/
theorem decode_all_points_overflow :
    zero_header.length = trackvis_layout.TV_HEADERLEN ∧
    big_file.bytes = zero_header ++ records_bytes [big_record] ∧
    (TVHeader.of_bytes trackvis_layout zero_header).n_scalars = 0 ∧
    (TVHeader.of_bytes trackvis_layout zero_header).n_properties = 0 ∧
    big_record.wf ∧ (point_counts [big_record]).sum = 715827883 ∧
    ∃ pd : vtkPolyData,
      tv_reader_load trackvis_layout 2 (some big_file) = some (.ok pd) ∧
      pd.GetNumberOfPoints = 0 := by
  refine ⟨by decide, big_file_records, by decide, by decide, big_record_wf, ?_,
    _, big_file_decode, by decide⟩
  simp [point_counts, big_record_point_count]

/-- C10 (amended): for a well-formed file with `n_scalars = n_properties = 0`
whose `k` records each have `3 * point_count` representable as an `int`, the
float array that `get_polydata` returns has `3 * sum pi` values in use and its
memory is, byte for byte and hence 4-byte word for 4-byte word, the
concatenation in record order of the records' point data; the count fields are
not part of it and every byte has been written. -/
theorem decode_all_point_data (L : TVLayout) (f : File) (hdr : List Byte)
    (recs : List TVRecord) (hlen : hdr.length = L.TV_HEADERLEN)
    (hfile : f.bytes = hdr ++ records_bytes recs)
    (hs : (TVHeader.of_bytes L hdr).n_scalars = 0)
    (hp : (TVHeader.of_bytes L hdr).n_properties = 0)
    (hall : ∀ r ∈ recs, r.wf ∧ r.fits_int) (fuel : Nat) (hfuel : recs.length + 1 ≤ fuel) :
    ∃ (pd : vtkPolyData) (a : vtkFloatArray),
      tv_reader_load L fuel (some f) = some (.ok pd) ∧ pd.Points = some a ∧
      a.MaxId + 1 = 3 * (((point_counts recs).sum : Nat) : Int) ∧
      a.mem = (records_payload recs).map some :=
  ⟨_, _, get_polydata_well_formed L f hdr recs hlen hfile hs hp hall fuel hfuel, rfl,
    by simp, rfl⟩

/-- C10, witness: for the file with a record of 3 points and a record of 2
points the float array holds 15 values, the 36 bytes of the first record's
point data followed by the 24 bytes of the second's. -/
theorem decode_all_point_data_witness :
    ∃ (pd : vtkPolyData) (a : vtkFloatArray),
      tv_reader_load trackvis_layout 3 (some two_track_file) = some (.ok pd) ∧
      pd.Points = some a ∧ a.MaxId + 1 = 3 * ((5 : Nat) : Int) ∧
      a.mem = (ramp 1 36 ++ ramp 101 24).map some :=
  decode_all_point_data trackvis_layout two_track_file zero_header
    [record_3, record_2] (by decide) rfl (by decide) (by decide) (by decide) 3 (by decide)

/-- C10, counterexample: for `big_file` (one well-formed record of 715827883
points) the float array returned by `get_polydata` is empty, although the
record carries `12 * 715827883` bytes of point data. -/
theorem decode_all_point_data_overflow :
    zero_header.length = trackvis_layout.TV_HEADERLEN ∧
    big_file.bytes = zero_header ++ records_bytes [big_record] ∧
    (TVHeader.of_bytes trackvis_layout zero_header).n_scalars = 0 ∧
    (TVHeader.of_bytes trackvis_layout zero_header).n_properties = 0 ∧
    big_record.wf ∧ (records_payload [big_record]).length = 12 * 715827883 ∧
    ∃ (pd : vtkPolyData) (a : vtkFloatArray),
      tv_reader_load trackvis_layout 2 (some big_file) = some (.ok pd) ∧
      pd.Points = some a ∧ a.MaxId + 1 = 0 ∧ a.mem = [] := by
  refine ⟨by decide, big_file_records, by decide, by decide, big_record_wf, ?_,
    _, _, big_file_decode, rfl, by decide, rfl⟩
  have h : records_payload [big_record] = big_payload := by
    simp [records_payload, big_record]
  rw [h]
  exact List.length_replicate _ _

/-- C2: `tv_trackblock_size` does not compute the record size
`4 + 4 * point_count * (3 + n_scalars) + 4 * n_properties`: for one point, one
scalar and no property it gives 24 where the format needs 20; for one point
alone 12 instead of 16; for an empty record 0 instead of 4. -/
theorem tv_trackblock_size_differs :
    tv_trackblock_size 1 1 0 = 24 ∧ record_size_spec 1 1 0 = 20 ∧
    tv_trackblock_size 1 0 0 = 12 ∧ record_size_spec 1 0 0 = 16 ∧
    tv_trackblock_size 0 0 0 = 0 ∧ record_size_spec 0 0 0 = 4 := by
  decide

/-- C3: on the reader opened on a file that is the header alone (no record),
`read_track(1)` never leaves its `while` loop: whatever the fuel, the loop
takes the `continue` branch again. -/
theorem read_track_past_end_spins :
    (TVReader.construct trackvis_layout (some header_only_file)).2 =
      .ok (TVReader.opened trackvis_layout header_only_file) ∧
    ∀ fuel : Nat,
      (TVReader.opened trackvis_layout header_only_file).read_track trackvis_layout fuel 1
        = none := by
  refine ⟨by rw [TVReader.construct_opened _ _ (by decide)], ?_⟩
  intro fuel
  unfold TVReader.read_track
  have h := read_track_loop_spins 1 (TVReader.opened trackvis_layout header_only_file)
    1000 (by decide) (by decide) fuel
  simp only [TVReader.opened, trackvis_layout, List.getLast?_nil] at h ⊢
  rw [h]

/-- C4: on the reader opened on a file with one record, `read_track(0)`
returns `nullptr` ("does not exist") although record 0 starts at
`TV_HEADERLEN`, and leaves the offset cache empty. -/
theorem read_track_first_record_missing :
    one_track_file.bytes = zero_header ++ records_bytes [record_1] ∧ record_1.wf ∧
    (TVReader.construct trackvis_layout (some one_track_file)).2 =
      .ok (TVReader.opened trackvis_layout one_track_file) ∧
    ∀ fuel : Nat,
      (TVReader.opened trackvis_layout one_track_file).read_track trackvis_layout (fuel + 1) 0
        = some (.ok (TVReader.opened trackvis_layout one_track_file, none)) :=
  ⟨rfl, by decide, by rw [TVReader.construct_opened _ _ (by decide)],
    fun fuel => read_track_zero trackvis_layout one_track_file fuel⟩

/-- C8: on the reader opened on a file with one record, `read_track(1)` called
directly yields no return value at all: the first loop iteration evaluates
`offsets.back()` on the empty offset cache.  The same happens when
`read_track(0)` is called first, since that call leaves the reader as it was. -/
theorem read_track_direct_faults :
    (TVReader.construct trackvis_layout (some one_track_file)).2 =
      .ok (TVReader.opened trackvis_layout one_track_file) ∧
    ∀ fuel : Nat,
      (TVReader.opened trackvis_layout one_track_file).read_track trackvis_layout (fuel + 1) 1
        = some (.error .back_of_empty_vector) ∧
      (TVReader.opened trackvis_layout one_track_file).read_track trackvis_layout (fuel + 1) 0
        = some (.ok (TVReader.opened trackvis_layout one_track_file, none)) := by
  refine ⟨by rw [TVReader.construct_opened _ _ (by decide)], fun fuel => ⟨?_, ?_⟩⟩
  · have hsz : ¬ (1000 ≥ one_track_file.bytes.length) := by decide
    simp [TVReader.read_track, read_track_loop, TVReader.opened, trackvis_layout, hsz]
  · exact read_track_zero trackvis_layout one_track_file fuel

/-- C5, counterexample: `truncated_file` is the header, a point count of 10
and 5 bytes where 120 bytes of point data are declared.  `get_polydata` raises
nothing: it returns a polydata with 10 points and one polyline. -/
theorem decode_all_truncated_returns :
    truncated_file.bytes = zero_header ++ [10, 0, 0, 0] ++ ramp 1 5 ∧
    to_signed 32 (le_nat [10, 0, 0, 0]) = 10 ∧ (ramp 1 5).length < 4 * 3 * 10 ∧
    (TVReader.opened trackvis_layout truncated_file).header.n_scalars = 0 ∧
    (TVReader.opened trackvis_layout truncated_file).header.n_properties = 0 ∧
    ∃ pd : vtkPolyData,
      tv_reader_load trackvis_layout 2 (some truncated_file) = some (.ok pd) ∧
      pd.GetNumberOfPoints = 10 ∧ pd.GetNumberOfLines = 1 :=
  ⟨rfl, by decide, by decide, by decide, by decide, _,
    tv_reader_load_truncated trackvis_layout truncated_file zero_header [10, 0, 0, 0]
      (ramp 1 5) [] (by decide) rfl (by decide) (by decide) (by decide) (by decide)
      10 (by decide) (by decide) (by decide) 2 (by decide),
    by decide, by decide⟩

/-- C5 (amended): let a file with `n_scalars = n_properties = 0` consist of
the header, `k` well-formed records (each `3 * point_count` representable as
an `int`), a 4-byte count field `cnt` and the bytes `rest`.
(1) Whatever `get_polydata` returns, every extraction from the stream lies
inside the file: no byte at a position `>= filesize` is read.
(2) If the count in `cnt` is negative, `get_polydata` returns no result: the
call ends with the `std::length_error` of `std::vector<vtkIdType>
idlist(cur_pts)` (the code has no `Corrupt` or `Truncated` error).
(3) If the count `p >= 0` in `cnt` (with `3 * p` representable as an `int`)
declares more point data than the `rest` of the file holds, no error is
raised: `get_polydata` returns a polydata in which the truncated record counts
as a polyline of `p` points, after the `k` polylines of the complete records. -/
theorem decode_all_malformed (L : TVLayout) (f : File) (hdr cnt rest : List Byte)
    (recs : List TVRecord) (hlen : hdr.length = L.TV_HEADERLEN)
    (hfile : f.bytes = hdr ++ records_bytes recs ++ cnt ++ rest)
    (hs : (TVHeader.of_bytes L hdr).n_scalars = 0)
    (hp : (TVHeader.of_bytes L hdr).n_properties = 0)
    (hall : ∀ r ∈ recs, r.wf ∧ r.fits_int) (hcnt : cnt.length = 4) :
    (∀ (fuel : Nat) (rdr1 : TVReader) (res : Except Fault vtkPolyData),
      (TVReader.opened L f).get_polydata L fuel = some (rdr1, res) →
      rdr1.stream.data = f.bytes ∧ rdr1.stream.pos ≤ f.bytes.length ∧
      ∀ e ∈ rdr1.stream.log, e.1 + e.2 ≤ f.bytes.length) ∧
    (to_signed 32 (le_nat cnt) < 0 →
      ∀ fuel : Nat, recs.length + 1 ≤ fuel →
        tv_reader_load L fuel (some f) = some (.error .length_error)) ∧
    (∀ p : Nat, to_signed 32 (le_nat cnt) = (p : Int) → 3 * p < 2 ^ 31 →
      rest.length < 12 * p →
      ∀ fuel : Nat, recs.length + 2 ≤ fuel →
        ∃ pd : vtkPolyData,
          tv_reader_load L fuel (some f) = some (.ok pd) ∧
          pd.GetNumberOfPoints = (point_counts recs).sum + p ∧
          pd.GetNumberOfLines = recs.length + 1 ∧
          pd.Lines = some (consecutive_ranges 0 (point_counts recs ++ [p]))) := by
  have hle : L.TV_HEADERLEN ≤ f.bytes.length := by rw [hfile]; simp [hlen]
  have hhdr : (TVReader.opened L f).header = TVHeader.of_bytes L hdr := by
    simp only [TVReader.opened]
    rw [hfile, List.append_assoc, List.append_assoc, ← hlen, List.take_left]
  refine ⟨?_, ?_, ?_⟩
  · intro fuel rdr1 res hres
    rw [TVReader.get_polydata_opened L f fuel (by rw [hhdr]; exact hs) (by rw [hhdr]; exact hp)]
      at hres
    cases hl : get_polydata_loop f.bytes.length fuel (decode_start L f.bytes) with
    | none => rw [hl] at hres; simp at hres
    | some x =>
      obtain ⟨fin, flt⟩ := x
      rw [hl] at hres
      simp only [Option.map_some', Option.some.injEq, Prod.mk.injEq] at hres
      obtain ⟨hr, _⟩ := hres
      subst hr
      have hstart : (decode_start L f.bytes).stream.in_bounds := by
        refine ⟨hle, ?_⟩
        intro e he
        simp only [decode_start, List.mem_singleton] at he
        subst he
        simpa using hle
      obtain ⟨⟨hb1, hb2⟩, hdat⟩ :=
        get_polydata_loop_in_bounds f.bytes.length fuel _ fin flt hstart hl
      have hdat2 : fin.stream.data = f.bytes := hdat
      rw [hdat2] at hb1 hb2
      exact ⟨hdat2, hb1, hb2⟩
  · intro hneg fuel hfuel
    exact tv_reader_load_negative L f hdr cnt rest recs hlen hfile hs hp hall hcnt hneg fuel hfuel
  · intro p hpc hfit hshort fuel hfuel
    refine ⟨_, tv_reader_load_truncated L f hdr cnt rest recs hlen hfile hs hp hall hcnt p hpc
      hfit hshort fuel hfuel, ?_, ?_, rfl⟩
    · simp only [vtkPolyData.GetNumberOfPoints, vtkFloatArray.GetNumberOfTuples]
      have : 3 * ((((point_counts recs).sum + p : Nat)) : Int) - 1 + 1
          = ((3 * ((point_counts recs).sum + p) : Nat) : Int) := by push_cast; ring
      rw [this, Int.toNat_ofNat]
      omega
    · simp [vtkPolyData.GetNumberOfLines, consecutive_ranges_length, point_counts]

/-- C5, witness: the file cut inside its only record (count 10, 5 bytes of
point data) decodes without error to 10 points and one polyline; the file
whose only record has count `-1` ends in `std::length_error`. -/
theorem decode_all_malformed_witness :
    (∃ pd : vtkPolyData,
      tv_reader_load trackvis_layout 2 (some truncated_file) = some (.ok pd) ∧
      pd.GetNumberOfPoints = 0 + 10 ∧ pd.GetNumberOfLines = 0 + 1 ∧
      pd.Lines = some (consecutive_ranges 0 ([] ++ [10]))) ∧
    tv_reader_load trackvis_layout 1 (some negative_count_file)
      = some (.error .length_error) :=
  ⟨(decode_all_malformed trackvis_layout truncated_file zero_header [10, 0, 0, 0]
      (ramp 1 5) [] (by decide) rfl (by decide) (by decide) (by decide) (by decide)).2.2
      10 (by decide) (by decide) (by decide) 2 (by decide),
   (decode_all_malformed trackvis_layout negative_count_file zero_header [255, 255, 255, 255]
      (ramp 1 12) [] (by decide) rfl (by decide) (by decide) (by decide) (by decide)).2.1
      (by decide) 1 (by decide)⟩

/-- C6, counterexample: for the file whose header has `n_scalars = 1`,
`get_polydata` raises nothing: it returns a (fresh, empty) polydata. -/
theorem decode_all_scalars_returns :
    (TVReader.opened trackvis_layout scalars_file).header.n_scalars = 1 ∧
    tv_reader_load trackvis_layout 1 (some scalars_file) = some (.ok vtkPolyData.new) :=
  ⟨by decide, rfl⟩

/-- C6 (amended): for every file whose header has `n_scalars > 0` or
`n_properties > 0`, `get_polydata` raises no error; it returns a polydata with
zero points and zero polylines, and reads nothing beyond the header. -/
theorem decode_all_scalars_empty (L : TVLayout) (f : File) (fuel : Nat)
    (hle : L.TV_HEADERLEN ≤ f.bytes.length)
    (h : 0 < (TVReader.opened L f).header.n_scalars ∨
         0 < (TVReader.opened L f).header.n_properties) :
    ∃ (rdr1 : TVReader) (pd : vtkPolyData),
      (TVReader.construct L (some f)).2 = .ok (TVReader.opened L f) ∧
      (TVReader.opened L f).get_polydata L fuel = some (rdr1, .ok pd) ∧
      tv_reader_load L fuel (some f) = some (.ok pd) ∧
      pd.GetNumberOfPoints = 0 ∧ pd.GetNumberOfLines = 0 ∧
      rdr1.stream.log = [(0, L.TV_HEADERLEN)] := by
  have hne : ¬ ((TVReader.opened L f).header.n_scalars = 0 ∧
      (TVReader.opened L f).header.n_properties = 0) := by
    intro hz; omega
  have hg : (TVReader.opened L f).get_polydata L fuel =
      some ({ TVReader.opened L f with
                stream := (TVReader.opened L f).stream.seekg (L.TV_HEADERLEN : Int) },
            .ok vtkPolyData.new) := by
    unfold TVReader.get_polydata
    rw [if_neg hne]
  refine ⟨_, _, by rw [TVReader.construct_opened L f hle], hg, ?_, rfl, rfl, ?_⟩
  · rw [tv_reader_load_opened L fuel f hle, hg]; rfl
  · have hneg : ¬ ((L.TV_HEADERLEN : Int) < 0) := by omega
    simp [TVReader.opened, IStream.seekg, hneg]

/-- C6, witness: the file whose header has `n_scalars = 1`. -/
theorem decode_all_scalars_empty_witness :
    ∃ (rdr1 : TVReader) (pd : vtkPolyData),
      (TVReader.construct trackvis_layout (some scalars_file)).2 =
        .ok (TVReader.opened trackvis_layout scalars_file) ∧
      (TVReader.opened trackvis_layout scalars_file).get_polydata trackvis_layout 1
        = some (rdr1, .ok pd) ∧
      tv_reader_load trackvis_layout 1 (some scalars_file) = some (.ok pd) ∧
      pd.GetNumberOfPoints = 0 ∧ pd.GetNumberOfLines = 0 ∧
      rdr1.stream.log = [(0, 1000)] :=
  decode_all_scalars_empty trackvis_layout scalars_file 1 (by decide) (Or.inl (by decide))

/-- C7: on a file of 10 bytes, shorter than `TV_HEADERLEN`, the constructor
stops at the size check before the header read (nothing was read, the stream
is at the end of the file and not failed), but what it raises there is the
bare `throw;` with no exception being handled, that is `std::terminate`: the
process is aborted and no `Truncated` error reaches the caller.  The very same
fault is raised for a file that cannot be opened, so it does not tell a
truncated file apart either. -/
theorem open_short_file_terminates :
    short_file.bytes.length = 10 ∧ trackvis_layout.TV_HEADERLEN = 1000 ∧
    TVReader.construct trackvis_layout (some short_file) =
      ({ data := short_file.bytes, pos := 10, failbit := false, log := [] },
        .error .terminate) ∧
    (TVReader.construct trackvis_layout none).2 = .error .terminate ∧
    ∀ fuel : Nat, tv_reader_load trackvis_layout fuel (some short_file)
      = some (.error .terminate) := by
  have hc := TVReader.construct_short trackvis_layout short_file (by decide)
  refine ⟨by decide, rfl, hc, rfl, fun fuel => ?_⟩
  unfold tv_reader_load
  rw [hc]

/-- C9: two files of equal length with the same bytes before and after the
header's `n_count` field (they differ at most in that field) give the same
result of constructing the reader and calling `get_polydata` (the same
polydata, points and polylines, or the same fault), for every fuel; and with
fuel above the file size the call returns. -/
theorem n_count_is_ignored (L : TVLayout) (hL : L.wf) (f1 f2 : File)
    (hlen : f1.bytes.length = f2.bytes.length)
    (hpre : f1.bytes.take L.n_count_off = f2.bytes.take L.n_count_off)
    (hpost : f1.bytes.drop (L.n_count_off + L.n_count_len)
      = f2.bytes.drop (L.n_count_off + L.n_count_len)) :
    (∀ fuel : Nat, tv_reader_load L fuel (some f1) = tv_reader_load L fuel (some f2)) ∧
    ∀ fuel : Nat, f1.bytes.length < fuel →
      ∃ res, tv_reader_load L fuel (some f1) = some res ∧
        tv_reader_load L fuel (some f2) = some res := by
  refine ⟨tv_reader_load_congr L hL f1 f2 hlen hpre hpost, fun fuel hfuel => ?_⟩
  obtain ⟨res, hres⟩ := tv_reader_load_terminates L fuel f1 hfuel
  exact ⟨res, hres, by rw [← tv_reader_load_congr L hL f1 f2 hlen hpre hpost fuel, hres]⟩

/-- C9, witness: the two-record file with `n_count = 0` and the same file with
`n_count = 7`. -/
theorem n_count_is_ignored_witness :
    (∀ fuel : Nat, tv_reader_load trackvis_layout fuel (some two_track_file)
      = tv_reader_load trackvis_layout fuel (some two_track_file_count7)) ∧
    ∀ fuel : Nat, two_track_file.bytes.length < fuel →
      ∃ res, tv_reader_load trackvis_layout fuel (some two_track_file) = some res ∧
        tv_reader_load trackvis_layout fuel (some two_track_file_count7) = some res :=
  n_count_is_ignored trackvis_layout (by decide) two_track_file two_track_file_count7
    (by decide) (by decide) (by decide)

end TrackVis
